import Mathlib

/-!
Verification of the points-and-scoring accounting subsystem of the
brawl-art-arena application.  The definitions below are a shallow
embedding of the persistent state (the relational tables) and of the
operations that mutate it: the `update_user_points` stored procedure,
the `update_artwork_counts` and `update_fight_points` triggers, the
`update_event_status` procedure, and the client-side mutation paths
(`handleLikeToggle`, `handleUploadSuccess`, `handleAttack`,
`handleInteraction`, `launchAttack`, `joinEvent`, `fetchTeamScores`).
Identifiers are Nat, integer columns are Int, timestamps are Int.
-/

namespace BrawlArena

inductive Team where
  | A : Team
  | B : Team
deriving DecidableEq, Repr

inductive EvStatus where
  | upcoming : EvStatus
  | ongoing : EvStatus
  | ended : EvStatus
deriving DecidableEq, Repr

inductive IType where
  | like : IType
  | attack : IType
deriving DecidableEq, Repr

/-- Row of `events` (the columns the scoring core reads). -/
structure EventRow where
  id : Nat
  start_time : Int
  end_time : Int
  status : EvStatus
deriving DecidableEq, Repr

/-- Row of `event_participants`. -/
structure ParticipantRow where
  event_id : Nat
  user_id : Nat
  team : Team
deriving DecidableEq, Repr

/-- Row of `artworks` (scoring-relevant columns). -/
structure ArtworkRow where
  id : Nat
  user_id : Nat
  event_id : Nat
  likes_count : Int
  attacks_count : Int
deriving DecidableEq, Repr

/-- Row of `artwork_interactions`. -/
structure InteractionRow where
  artwork_id : Nat
  user_id : Nat
  interaction_type : IType
deriving DecidableEq, Repr

/-- Row of `fight_artworks` (scoring-relevant columns). -/
structure FightRow where
  attacker_id : Nat
  target_artwork_id : Nat
deriving DecidableEq, Repr

/-- Row of `user_points`. -/
structure UserPointsRow where
  user_id : Nat
  event_id : Nat
  artwork_points : Int
  like_points : Int
  attack_points : Int
  points_total : Int
deriving DecidableEq, Repr

/-- The durable state: the tables of the entity store. -/
structure DB where
  events : List EventRow
  participants : List ParticipantRow
  artworks : List ArtworkRow
  interactions : List InteractionRow
  fight_artworks : List FightRow
  user_points : List UserPointsRow
deriving DecidableEq, Repr

def initDB : DB := ⟨[], [], [], [], [], []⟩

/-- Key predicate for a `user_points` row: the `(user_id, event_id)`
unique constraint. -/
def upKey (u e : Nat) (r : UserPointsRow) : Bool :=
  r.user_id == u && r.event_id == e

/-- Lookup of the `user_points` row of `(u, e)` (unique constraint makes
it unique). -/
def findUP (db : DB) (u e : Nat) : Option UserPointsRow :=
  db.user_points.find? (upKey u e)

/-- SQL `UPDATE user_points ... WHERE user_id = u AND event_id = e`. -/
def applyAtUP (u e : Nat) (f : UserPointsRow → UserPointsRow)
    (l : List UserPointsRow) : List UserPointsRow :=
  l.map (fun r => if upKey u e r then f r else r)

/-- The `DO UPDATE` merge rule of `update_user_points`: add each delta
to its component and recompute the total as the sum of the old
components plus all deltas. -/
def rpcMerge (pa pl pk : Int) (r : UserPointsRow) : UserPointsRow :=
  { r with
    artwork_points := r.artwork_points + pa
    like_points := r.like_points + pl
    attack_points := r.attack_points + pk
    points_total := r.artwork_points + r.like_points +
      r.attack_points + pa + pl + pk }

/-- The stored procedure `public.update_user_points` from the migration:
insert `(pa, pl, pk, pa + pl + pk)` or, on conflict with the
`(user_id, event_id)` constraint, apply `rpcMerge`. -/
def update_user_points (db : DB) (u e : Nat) (pa pl pk : Int) : DB :=
  match findUP db u e with
  | none =>
      { db with user_points :=
          ⟨u, e, pa, pl, pk, pa + pl + pk⟩ :: db.user_points }
  | some _ =>
      { db with user_points :=
          applyAtUP u e (rpcMerge pa pl pk) db.user_points }

/-- First `UPDATE` of `public.update_event_status`: upcoming events whose
start time has passed become ongoing. -/
def statusStep1 (now : Int) (e : EventRow) : EventRow :=
  if e.status = EvStatus.upcoming ∧ e.start_time ≤ now then
    { e with status := EvStatus.ongoing }
  else e

/-- Second `UPDATE` of `public.update_event_status`: ongoing events whose
end time has passed become ended. -/
def statusStep2 (now : Int) (e : EventRow) : EventRow :=
  if e.status = EvStatus.ongoing ∧ e.end_time ≤ now then
    { e with status := EvStatus.ended }
  else e

/-- Effect of one invocation of `update_event_status` on a single event
row: the two updates run in sequence. -/
def stepEvent (now : Int) (e : EventRow) : EventRow :=
  statusStep2 now (statusStep1 now e)

/-- `public.update_event_status`: the two sequential table-wide updates. -/
def refreshStatuses (evs : List EventRow) (now : Int) : List EventRow :=
  (evs.map (statusStep1 now)).map (statusStep2 now)

/-- Ordering of the event lifecycle. -/
def statusRank : EvStatus → Nat
  | EvStatus.upcoming => 0
  | EvStatus.ongoing => 1
  | EvStatus.ended => 2

/-- Team assignment at join time, from `joinEvent` in Events.tsx and
EventDetail.tsx: count the participants of each team, assign to A when
`teamACounts <= teamBCounts`, otherwise to B. -/
def assignTeam (ps : List ParticipantRow) : Team :=
  let teamACounts := (ps.filter (fun p => p.team == Team.A)).length
  let teamBCounts := (ps.filter (fun p => p.team == Team.B)).length
  if teamACounts ≤ teamBCounts then Team.A else Team.B

/-- `joinEvent`: insert an `event_participants` row for `(e, u)` with the
balanced team; the `(event_id, user_id)` unique constraint rejects a
duplicate join. -/
def joinEvent (db : DB) (u e : Nat) : Except String DB :=
  if db.participants.any (fun p => p.event_id == e && p.user_id == u) then
    Except.error "already joined"
  else
    Except.ok { db with participants :=
      ⟨e, u, assignTeam (db.participants.filter (fun p => p.event_id == e))⟩
        :: db.participants }

/-- Like points of the `(u, e)` row as read by the clients (a missing
row reads as 0). -/
def likePts (db : DB) (u e : Nat) : Int :=
  match findUP db u e with
  | some r => r.like_points
  | none => 0

/-- Total points of the `(u, e)` row (a missing row reads as 0). -/
def totalPts (db : DB) (u e : Nat) : Int :=
  match findUP db u e with
  | some r => r.points_total
  | none => 0

/-- Attack points of the `(u, e)` row (a missing row reads as 0). -/
def attackPts (db : DB) (u e : Nat) : Int :=
  match findUP db u e with
  | some r => r.attack_points
  | none => 0

/-- Artwork points of the `(u, e)` row (a missing row reads as 0). -/
def artworkPts (db : DB) (u e : Nat) : Int :=
  match findUP db u e with
  | some r => r.artwork_points
  | none => 0

/-- `likes_count` stored on artwork `aid` (0 when the artwork does not
exist). -/
def likesCountOf (db : DB) (aid : Nat) : Int :=
  match db.artworks.find? (fun a => a.id == aid) with
  | some a => a.likes_count
  | none => 0

/-- `attacks_count` stored on artwork `aid`. -/
def attacksCountOf (db : DB) (aid : Nat) : Int :=
  match db.artworks.find? (fun a => a.id == aid) with
  | some a => a.attacks_count
  | none => 0

/-- Number of existing `like` interaction rows referencing artwork
`aid`. -/
def likeRowsOn (db : DB) (aid : Nat) : Nat :=
  db.interactions.countP
    (fun i => i.artwork_id == aid && i.interaction_type == IType.like)

/-- Number of existing `attack` interaction rows referencing artwork
`aid`. -/
def attackRowsOn (db : DB) (aid : Nat) : Nat :=
  db.interactions.countP
    (fun i => i.artwork_id == aid && i.interaction_type == IType.attack)

/-- Event of the artwork `aid` as found by id lookup. -/
def artworkEvent (db : DB) (aid : Nat) : Option Nat :=
  (db.artworks.find? (fun a => a.id == aid)).map (fun a => a.event_id)

/-- Resolve an `Except`-valued mutation: on error the durable state is
unchanged. -/
def settle (r : Except String DB) (db : DB) : DB :=
  match r with
  | Except.ok db1 => db1
  | Except.error _ => db

/-- The `update_artwork_counts` trigger body, fired `AFTER INSERT` on
`artwork_interactions` (and only on insert): bump the counter of the
inserted row's type on the referenced artwork. -/
def bumpCount (ty : IType) (aid : Nat) (arts : List ArtworkRow) :
    List ArtworkRow :=
  arts.map (fun a =>
    if a.id == aid then
      match ty with
      | IType.like => { a with likes_count := a.likes_count + 1 }
      | IType.attack => { a with attacks_count := a.attacks_count + 1 }
    else a)

/-- Whether the `(aid, u, ty)` interaction row exists: the client
already-interacted checks and the unique constraint both test this. -/
def interactionExists (db : DB) (aid u : Nat) (ty : IType) : Bool :=
  db.interactions.any
    (fun i => i.artwork_id == aid && i.user_id == u &&
      i.interaction_type == ty)

/-- The team of a participant, as looked up by the clients (none when
the user has not joined the event). -/
def teamOf (db : DB) (uid e : Nat) : Option Team :=
  (db.participants.find?
    (fun p => p.user_id == uid && p.event_id == e)).map (fun p => p.team)

/-- The rows left after deleting the `(aid, u)` like row. -/
def removeLike (ints : List InteractionRow) (aid u : Nat) :
    List InteractionRow :=
  ints.filter (fun i => !(i.artwork_id == aid && i.user_id == u &&
    i.interaction_type == IType.like))

/-- Durable insert into `artwork_interactions`: fails on the
`(artwork_id, user_id, interaction_type)` unique constraint or on the
foreign key to `artworks`; on success the `AFTER INSERT` trigger
`update_artwork_counts` fires. -/
def insertInteraction (db : DB) (aid u : Nat) (ty : IType) :
    Except String DB :=
  if interactionExists db aid u ty then
    Except.error "duplicate interaction"
  else if db.artworks.any (fun a => a.id == aid) then
    Except.ok { db with
      interactions := ⟨aid, u, ty⟩ :: db.interactions
      artworks := bumpCount ty aid db.artworks }
  else
    Except.error "foreign key violation"

/-- Durable insert into `artworks` (fresh primary key, counters default
to 0). -/
def insertArtwork (db : DB) (aid owner e : Nat) : Option DB :=
  if db.artworks.any (fun a => a.id == aid) then none
  else some { db with artworks := ⟨aid, owner, e, 0, 0⟩ :: db.artworks }

/-- `handleUploadSuccess` in EventGallery.tsx: read the uploader's
current `artwork_points` and `points_total` (0 when the row is absent)
and upsert `artwork_points + 3` and `points_total + 3`; on conflict only
those two columns are written. -/
def uploadMerge (ca ct : Int) (r : UserPointsRow) : UserPointsRow :=
  { r with
    artwork_points := ca + 3
    points_total := ct + 3 }

def handleUploadSuccess (db : DB) (u e : Nat) : DB :=
  let currentArtworkPoints := artworkPts db u e
  let currentTotalPoints := totalPts db u e
  match findUP db u e with
  | none =>
      { db with user_points :=
          ⟨u, e, currentArtworkPoints + 3, 0, 0, currentTotalPoints + 3⟩
            :: db.user_points }
  | some _ =>
      { db with user_points :=
          applyAtUP u e (uploadMerge currentArtworkPoints
            currentTotalPoints) db.user_points }

/-- The unlike write of `handleLikeToggle`: clamp both `like_points`
and `points_total` at 0 independently after subtracting the 1-point
like reward. -/
def unlikeMerge (r : UserPointsRow) : UserPointsRow :=
  { r with
    like_points := max 0 (r.like_points - 1)
    points_total := max 0 (r.points_total - 1) }

/-- The like write of `handleLikeToggle`: overwrite with the previously
read values plus the 1-point like reward. -/
def likeAddMerge (cl ct : Int) (r : UserPointsRow) : UserPointsRow :=
  { r with
    like_points := cl + 1
    points_total := ct + 1 }

/-- `handleLikeToggle` in EventGallery.tsx, durable effects only.
Guards: the artwork must be in the event's gallery; the acting user must
not own it; when both the acting user's team and the owner's team are
known they must differ.  Then: if a `like` interaction row of
`(aid, u)` exists, delete it (the counts trigger fires only on insert,
so `likes_count` is untouched durably) and, when the owner has a
`user_points` row, write `like_points := max 0 (like_points - 1)` and
`points_total := max 0 (points_total - 1)`; otherwise insert the row
(trigger bumps `likes_count`) and upsert the owner's
`like_points + 1` / `points_total + 1`. -/
def handleLikeToggle (db : DB) (u aid e : Nat) : Except String DB :=
  match db.artworks.find? (fun a => a.id == aid && a.event_id == e) with
  | none => Except.error "artwork not found"
  | some art =>
    if art.user_id == u then
      Except.error "cannot like your own artwork"
    else
      let userTeam := teamOf db u e
      let ownerTeam := teamOf db art.user_id e
      if userTeam.isSome && userTeam == ownerTeam then
        Except.error "cannot like artwork from your own team"
      else
        let existingLike := interactionExists db aid u IType.like
        if existingLike then
          let db1 := { db with
            interactions := removeLike db.interactions aid u }
          match findUP db1 art.user_id e with
          | none => Except.ok db1
          | some _ =>
              let pts := applyAtUP art.user_id e unlikeMerge
                db1.user_points
              Except.ok { db1 with user_points := pts }
        else
          match insertInteraction db aid u IType.like with
          | Except.error m => Except.error m
          | Except.ok db1 =>
            let currentLikePoints := likePts db1 art.user_id e
            let currentTotal := totalPts db1 art.user_id e
            match findUP db1 art.user_id e with
            | none =>
                let row : UserPointsRow :=
                  ⟨art.user_id, e, 0, currentLikePoints + 1, 0,
                    currentTotal + 1⟩
                Except.ok { db1 with user_points := row :: db1.user_points }
            | some _ =>
                let pts := applyAtUP art.user_id e
                  (likeAddMerge currentLikePoints currentTotal)
                  db1.user_points
                Except.ok { db1 with user_points := pts }

/-- `handleAttack` in AttackDialog.tsx: insert the `attack` interaction
row (unique constraint and foreign key enforced by the store; a conflict
aborts before any point change), then award 3 `attack_points` to the
attacker through the `update_user_points` procedure. -/
def handleAttack (db : DB) (u aid e : Nat) : Except String DB :=
  match insertInteraction db aid u IType.attack with
  | Except.error m => Except.error m
  | Except.ok db1 => Except.ok (update_user_points db1 u e 0 0 3)

/-- `handleInteraction` in the global Gallery page (part_003): reject
only when the same interaction row already exists, then insert it; no
self-artwork or team check, and no point mutation at all on this path. -/
def handleInteraction (db : DB) (u aid : Nat) (ty : IType) :
    Except String DB :=
  if interactionExists db aid u ty then
    Except.error "already interacted"
  else
    insertInteraction db aid u ty

/-- The `DO UPDATE` merge rule of the `update_fight_points` trigger:
add 2 to `attack_points` and to `points_total`. -/
def fightMerge (r : UserPointsRow) : UserPointsRow :=
  { r with
    attack_points := r.attack_points + 2
    points_total := r.points_total + 2 }

/-- The `update_fight_points` trigger body, fired `AFTER INSERT` on
`fight_artworks`: insert-or-add 2 `attack_points` and 2 `points_total`
for the attacker in the target artwork's event; when the target artwork
does not exist the SELECT is empty and nothing is written. -/
def update_fight_points (db : DB) (attacker target : Nat) : DB :=
  match db.artworks.find? (fun a => a.id == target) with
  | none => db
  | some a =>
    match findUP db attacker a.event_id with
    | none =>
        { db with user_points :=
            ⟨attacker, a.event_id, 0, 0, 2, 2⟩ :: db.user_points }
    | some _ =>
        { db with user_points :=
            applyAtUP attacker a.event_id fightMerge db.user_points }

/-- Durable insert into `fight_artworks`: the table has no uniqueness
constraint on `(attacker_id, target_artwork_id)`; only the foreign key
to `artworks` can fail; the `AFTER INSERT` trigger
`on_fight_artwork_created` runs `update_fight_points`. -/
def insertFightArtwork (db : DB) (attacker target : Nat) :
    Except String DB :=
  if db.artworks.any (fun a => a.id == target) then
    Except.ok (update_fight_points
      { db with fight_artworks := ⟨attacker, target⟩ :: db.fight_artworks }
      attacker target)
  else
    Except.error "foreign key violation"

/-- `handleAttack` in AttackArtworkDialog (part_002), the FightArtwork
attack path: insert the `fight_artworks` row (its trigger awards +2),
then call `update_user_points` with `p_attack_points = 3`. -/
def launchAttack (db : DB) (u target e : Nat) : Except String DB :=
  match insertFightArtwork db u target with
  | Except.error m => Except.error m
  | Except.ok db1 => Except.ok (update_user_points db1 u e 0 0 3)

/-- One team's aggregate as computed by `fetchTeamScores`. -/
structure TeamScore where
  team : Team
  totalPoints : Int
  memberCount : Nat
deriving DecidableEq, Repr

/-- Points contributed by one participant: the `points_total` of the
first `user_points` row with their `user_id`, or 0 when none exists. -/
def participantPoints (points : List UserPointsRow)
    (p : ParticipantRow) : Int :=
  match points.find? (fun r => r.user_id == p.user_id) with
  | some r => r.points_total
  | none => 0

/-- One iteration of the `fetchTeamScores` loop over participants. -/
def scoreStep (points : List UserPointsRow)
    (acc : TeamScore × TeamScore) (p : ParticipantRow) :
    TeamScore × TeamScore :=
  let pts := participantPoints points p
  match p.team with
  | Team.A =>
      ({ acc.1 with
          totalPoints := acc.1.totalPoints + pts
          memberCount := acc.1.memberCount + 1 }, acc.2)
  | Team.B =>
      (acc.1, { acc.2 with
          totalPoints := acc.2.totalPoints + pts
          memberCount := acc.2.memberCount + 1 })

/-- `fetchTeamScores` in EventGallery.tsx: fold over the participants of
the event, adding each participant's `points_total` (0 when the user has
no `user_points` row) to their team's total and bumping the member
count. -/
def fetchTeamScores (points : List UserPointsRow)
    (participants : List ParticipantRow) : TeamScore × TeamScore :=
  participants.foldl (scoreStep points) (⟨Team.A, 0, 0⟩, ⟨Team.B, 0, 0⟩)

/-- The settled scoring operations of the system: artwork submission
with its award (the RPC path of ArtworkUpload.tsx and the client upsert
path of EventGallery.tsx), the like toggle, attack registration (the
interaction path of AttackDialog.tsx and the FightArtwork path of
part_002), and joining an event. -/
inductive Op where
  | submitRPC (aid owner e : Nat) : Op
  | submitClient (aid owner e : Nat) : Op
  | likeToggle (u aid e : Nat) : Op
  | attackInteract (u aid e : Nat) : Op
  | fightAttack (u aid e : Nat) : Op
  | join (u e : Nat) : Op

/-- Apply one settled operation; a rejected operation leaves the durable
state unchanged. -/
def applyOp (op : Op) (db : DB) : DB :=
  match op with
  | Op.submitRPC aid owner e =>
      match insertArtwork db aid owner e with
      | none => db
      | some db1 => update_user_points db1 owner e 5 0 0
  | Op.submitClient aid owner e =>
      match insertArtwork db aid owner e with
      | none => db
      | some db1 => handleUploadSuccess db1 owner e
  | Op.likeToggle u aid e => settle (handleLikeToggle db u aid e) db
  | Op.attackInteract u aid e => settle (handleAttack db u aid e) db
  | Op.fightAttack u aid e => settle (launchAttack db u aid e) db
  | Op.join u e => settle (joinEvent db u e) db

/-- States reachable from the empty store by settled operations. -/
inductive Reachable : DB → Prop where
  | init : Reachable initDB
  | step (op : Op) {db : DB} : Reachable db → Reachable (applyOp op db)

/-- Number of existing `like` interaction rows on artworks owned by `u`
in event `e`. -/
def likeCount (arts : List ArtworkRow) (ints : List InteractionRow)
    (u e : Nat) : Nat :=
  ints.countP (fun i =>
    i.interaction_type == IType.like &&
    arts.any (fun a =>
      a.id == i.artwork_id && a.user_id == u && a.event_id == e))

/-- The inductive invariant of the scoring state: the `points_total`
equation, non-negativity of the components, the lower bound tying
`like_points` to existing like rows, the foreign key from interactions
to artworks, and primary-key uniqueness of artworks. -/
structure Inv (db : DB) : Prop where
  total_eq : ∀ r ∈ db.user_points,
    r.points_total = r.artwork_points + r.like_points + r.attack_points
  nonneg : ∀ r ∈ db.user_points,
    0 ≤ r.artwork_points ∧ 0 ≤ r.like_points ∧ 0 ≤ r.attack_points
  like_ge : ∀ u e : Nat,
    (likeCount db.artworks db.interactions u e : Int) ≤ likePts db u e
  fk : ∀ i ∈ db.interactions, ∃ a ∈ db.artworks, a.id = i.artwork_id
  uniq : db.artworks.Pairwise (fun a b => a.id ≠ b.id)
  upUniq : db.user_points.Pairwise
    (fun a b => ¬(a.user_id = b.user_id ∧ a.event_id = b.event_id))

theorem stepEvent_idem (now : Int) (e : EventRow) :
    stepEvent now (stepEvent now e) = stepEvent now e := by
  simp only [stepEvent, statusStep1, statusStep2]
  split_ifs <;> simp_all

/-- C8: `refreshStatuses(now)` (the `update_event_status` procedure)
sets every upcoming event whose start time has passed to ongoing — and,
because the two updates run in sequence, directly to ended when its end
time has also passed — sets every ongoing event whose end time has
passed to ended, leaves a not-yet-started event alone, never decreases
the lifecycle rank (upcoming → ongoing → ended, never reversed), is a
no-op on an already-ended event, and is idempotent. -/
theorem c8_refresh_statuses (now : Int) (e : EventRow)
    (evs : List EventRow) :
    (e.status = EvStatus.upcoming → e.start_time ≤ now →
      now < e.end_time → (stepEvent now e).status = EvStatus.ongoing) ∧
    (e.status = EvStatus.upcoming → e.start_time ≤ now →
      e.end_time ≤ now → (stepEvent now e).status = EvStatus.ended) ∧
    (e.status = EvStatus.ongoing → e.end_time ≤ now →
      (stepEvent now e).status = EvStatus.ended) ∧
    (e.status = EvStatus.upcoming → now < e.start_time →
      stepEvent now e = e) ∧
    (e.status = EvStatus.ongoing → now < e.end_time →
      stepEvent now e = e) ∧
    statusRank e.status ≤ statusRank (stepEvent now e).status ∧
    (e.status = EvStatus.ended → stepEvent now e = e) ∧
    stepEvent now (stepEvent now e) = stepEvent now e ∧
    refreshStatuses evs now = evs.map (stepEvent now) ∧
    refreshStatuses (refreshStatuses evs now) now =
      refreshStatuses evs now := by
  refine ⟨?_, ?_, ?_, ?_, ?_, ?_, ?_, stepEvent_idem now e, ?_, ?_⟩
  · intro h1 h2 h3
    simp only [stepEvent, statusStep1, statusStep2]
    split_ifs <;> simp_all <;> omega
  · intro h1 h2 h3
    simp only [stepEvent, statusStep1, statusStep2]
    split_ifs <;> simp_all
  · intro h1 h2
    simp only [stepEvent, statusStep1, statusStep2]
    split_ifs <;> simp_all
  · intro h1 h2
    simp only [stepEvent, statusStep1, statusStep2]
    split_ifs <;> simp_all <;> omega
  · intro h1 h2
    simp only [stepEvent, statusStep1, statusStep2]
    split_ifs <;> simp_all <;> omega
  · simp only [stepEvent, statusStep1, statusStep2]
    split_ifs <;> simp_all [statusRank] <;> omega
  · intro h1
    simp only [stepEvent, statusStep1, statusStep2]
    split_ifs <;> simp_all
  · simp [refreshStatuses, List.map_map, stepEvent]
  · simp only [refreshStatuses, List.map_map]
    induction evs with
    | nil => rfl
    | cons x xs ih =>
        simp only [List.map_cons, List.cons.injEq]
        exact ⟨stepEvent_idem now x, ih⟩

theorem c8_refresh_statuses_witness :
    (stepEvent 5 ⟨0, 0, 10, EvStatus.upcoming⟩).status =
      EvStatus.ongoing ∧
    (stepEvent 20 ⟨0, 0, 10, EvStatus.upcoming⟩).status =
      EvStatus.ended := by
  refine ⟨?_, ?_⟩
  · exact (c8_refresh_statuses 5 ⟨0, 0, 10, EvStatus.upcoming⟩ []).1
      (by decide) (by decide) (by decide)
  · exact (c8_refresh_statuses 20 ⟨0, 0, 10, EvStatus.upcoming⟩
      []).2.1 (by decide) (by decide) (by decide)

/-- C9: `joinEvent` assigns the new participant to the team with the
lower current member count among the event's participants, with ties
broken toward team A, and inserts the participant row with that team
when the user has not already joined. -/
theorem c9_balanced_join (ps : List ParticipantRow) (db : DB)
    (u e : Nat) :
    ((ps.filter (fun p => p.team == Team.A)).length <
        (ps.filter (fun p => p.team == Team.B)).length →
      assignTeam ps = Team.A) ∧
    ((ps.filter (fun p => p.team == Team.A)).length =
        (ps.filter (fun p => p.team == Team.B)).length →
      assignTeam ps = Team.A) ∧
    ((ps.filter (fun p => p.team == Team.B)).length <
        (ps.filter (fun p => p.team == Team.A)).length →
      assignTeam ps = Team.B) ∧
    ((db.participants.any
        (fun p => p.event_id == e && p.user_id == u)) = false →
      joinEvent db u e = Except.ok { db with participants :=
        ⟨e, u, assignTeam (db.participants.filter
          (fun p => p.event_id == e))⟩ :: db.participants }) := by
  refine ⟨?_, ?_, ?_, ?_⟩
  · intro h
    simp only [assignTeam, if_pos (Nat.le_of_lt h)]
  · intro h
    simp only [assignTeam, if_pos (Nat.le_of_eq h)]
  · intro h
    simp only [assignTeam]
    rw [if_neg (by omega)]
  · intro h
    simp only [joinEvent, h, Bool.false_eq_true, if_false]

theorem c9_balanced_join_witness :
    assignTeam [⟨0, 1, Team.A⟩, ⟨0, 2, Team.B⟩, ⟨0, 3, Team.B⟩] =
      Team.A ∧
    assignTeam [⟨0, 1, Team.A⟩, ⟨0, 2, Team.B⟩] = Team.A ∧
    assignTeam [⟨0, 1, Team.A⟩, ⟨0, 2, Team.A⟩, ⟨0, 3, Team.B⟩] =
      Team.B ∧
    joinEvent initDB 7 0 = Except.ok { initDB with participants :=
      [⟨0, 7, Team.A⟩] } := by
  refine ⟨?_, ?_, ?_, ?_⟩
  · exact (c9_balanced_join
      [⟨0, 1, Team.A⟩, ⟨0, 2, Team.B⟩, ⟨0, 3, Team.B⟩] initDB 7 0).1
      (by decide)
  · exact (c9_balanced_join
      [⟨0, 1, Team.A⟩, ⟨0, 2, Team.B⟩] initDB 7 0).2.1 (by decide)
  · exact (c9_balanced_join
      [⟨0, 1, Team.A⟩, ⟨0, 2, Team.A⟩, ⟨0, 3, Team.B⟩] initDB 7
      0).2.2.1 (by decide)
  · exact (c9_balanced_join [] initDB 7 0).2.2.2 (by decide)

theorem scores_foldl (points : List UserPointsRow)
    (parts : List ParticipantRow) : ∀ a b : TeamScore,
    parts.foldl (scoreStep points) (a, b) =
      (⟨a.team,
        a.totalPoints + ((parts.filter (fun p => p.team == Team.A)).map
          (participantPoints points)).sum,
        a.memberCount +
          (parts.filter (fun p => p.team == Team.A)).length⟩,
       ⟨b.team,
        b.totalPoints + ((parts.filter (fun p => p.team == Team.B)).map
          (participantPoints points)).sum,
        b.memberCount +
          (parts.filter (fun p => p.team == Team.B)).length⟩) := by
  induction parts with
  | nil =>
      intro a b
      obtain ⟨ta, pa, ma⟩ := a
      obtain ⟨tb, pb, mb⟩ := b
      simp
  | cons p rest ih =>
      intro a b
      rw [List.foldl_cons]
      cases hp : p.team with
      | A =>
          have hstep : scoreStep points (a, b) p =
              ({ a with
                  totalPoints := a.totalPoints + participantPoints points p
                  memberCount := a.memberCount + 1 }, b) := by
            simp [scoreStep, hp]
          rw [hstep, ih]
          simp [List.filter_cons, hp, TeamScore.mk.injEq]
          constructor
          · ring
          · omega
      | B =>
          have hstep : scoreStep points (a, b) p =
              (a, { b with
                  totalPoints := b.totalPoints + participantPoints points p
                  memberCount := b.memberCount + 1 }) := by
            simp [scoreStep, hp]
          rw [hstep, ih]
          simp [List.filter_cons, hp, TeamScore.mk.injEq]
          constructor
          · ring
          · omega

/-- C7: `fetchTeamScores` returns, for each team, a `totalPoints` equal
to the sum over the event's participants of that team of their
`points_total` — a participant with no `user_points` row contributing
exactly 0 — and a `memberCount` equal to the number of participants on
that team. -/
theorem c7_team_scores (points : List UserPointsRow)
    (parts : List ParticipantRow) :
    (fetchTeamScores points parts).1 =
      ⟨Team.A,
       ((parts.filter (fun p => p.team == Team.A)).map
         (participantPoints points)).sum,
       (parts.filter (fun p => p.team == Team.A)).length⟩ ∧
    (fetchTeamScores points parts).2 =
      ⟨Team.B,
       ((parts.filter (fun p => p.team == Team.B)).map
         (participantPoints points)).sum,
       (parts.filter (fun p => p.team == Team.B)).length⟩ ∧
    ∀ p : ParticipantRow,
      points.find? (fun r => r.user_id == p.user_id) = none →
      participantPoints points p = 0 := by
  refine ⟨?_, ?_, ?_⟩
  · rw [fetchTeamScores, scores_foldl]
    simp
  · rw [fetchTeamScores, scores_foldl]
    simp
  · intro p hp
    simp [participantPoints, hp]

theorem c7_team_scores_witness :
    (fetchTeamScores [⟨1, 0, 5, 0, 0, 5⟩]
      [⟨0, 1, Team.A⟩, ⟨0, 2, Team.B⟩]).1 = ⟨Team.A, 5, 1⟩ ∧
    participantPoints [⟨1, 0, 5, 0, 0, 5⟩] ⟨0, 2, Team.B⟩ = 0 := by
  constructor
  · exact ((c7_team_scores [⟨1, 0, 5, 0, 0, 5⟩]
      [⟨0, 1, Team.A⟩, ⟨0, 2, Team.B⟩]).1).trans (by decide)
  · exact (c7_team_scores [⟨1, 0, 5, 0, 0, 5⟩]
      [⟨0, 1, Team.A⟩, ⟨0, 2, Team.B⟩]).2.2 ⟨0, 2, Team.B⟩ (by decide)

theorem upKey_eq_true {u e : Nat} {r : UserPointsRow} :
    upKey u e r = true ↔ r.user_id = u ∧ r.event_id = e := by
  simp [upKey]

/-- A field update that does not touch the key columns commutes with the
key predicate. -/
def KeyPres (f : UserPointsRow → UserPointsRow) : Prop :=
  ∀ r, (f r).user_id = r.user_id ∧ (f r).event_id = r.event_id

theorem upKey_of_keyPres {f : UserPointsRow → UserPointsRow}
    (hf : KeyPres f) (u e : Nat) (r : UserPointsRow) :
    upKey u e (f r) = upKey u e r := by
  simp [upKey, (hf r).1, (hf r).2]

theorem applyAtUP_find_same (u e : Nat)
    {f : UserPointsRow → UserPointsRow} (hf : KeyPres f)
    (l : List UserPointsRow) :
    (applyAtUP u e f l).find? (upKey u e) =
      (l.find? (upKey u e)).map f := by
  rw [applyAtUP, List.find?_map]
  have hp : (upKey u e) ∘
      (fun r => if upKey u e r then f r else r) = upKey u e := by
    funext r
    by_cases h : upKey u e r
    · simp [h, upKey_of_keyPres hf]
    · simp [h]
  rw [hp]
  cases hfind : l.find? (upKey u e) with
  | none => rfl
  | some r => simp [List.find?_some hfind]

theorem applyAtUP_find_other (u e u' e' : Nat)
    (hne : ¬(u' = u ∧ e' = e)) (f : UserPointsRow → UserPointsRow)
    (hf : KeyPres f) (l : List UserPointsRow) :
    (applyAtUP u e f l).find? (upKey u' e') = l.find? (upKey u' e') := by
  rw [applyAtUP, List.find?_map]
  have hp : (upKey u' e') ∘
      (fun r => if upKey u e r then f r else r) = upKey u' e' := by
    funext r
    by_cases h : upKey u e r
    · simp [h, upKey_of_keyPres hf]
    · simp [h]
  rw [hp]
  cases hfind : l.find? (upKey u' e') with
  | none => rfl
  | some r =>
      have hr := upKey_eq_true.mp (List.find?_some hfind)
      have hno : upKey u e r = false := by
        cases h : upKey u e r with
        | false => rfl
        | true =>
            rcases upKey_eq_true.mp h with ⟨h1, h2⟩
            exact absurd ⟨hr.1.symm.trans h1, hr.2.symm.trans h2⟩ hne
      simp [hno]

theorem mem_applyAtUP {u e : Nat} {f : UserPointsRow → UserPointsRow}
    {l : List UserPointsRow} {s : UserPointsRow}
    (h : s ∈ applyAtUP u e f l) :
    ∃ r ∈ l, s = if upKey u e r then f r else r := by
  rw [applyAtUP] at h
  rcases List.mem_map.mp h with ⟨r, hr, hs⟩
  exact ⟨r, hr, hs.symm⟩

/-- Effect of `update_user_points` on the targeted row's fields. -/
theorem rpc_effect (db : DB) (u e : Nat) (pa pl pk : Int) :
    artworkPts (update_user_points db u e pa pl pk) u e =
      artworkPts db u e + pa ∧
    likePts (update_user_points db u e pa pl pk) u e =
      likePts db u e + pl ∧
    attackPts (update_user_points db u e pa pl pk) u e =
      attackPts db u e + pk ∧
    totalPts (update_user_points db u e pa pl pk) u e =
      artworkPts db u e + likePts db u e + attackPts db u e +
        pa + pl + pk := by
  unfold update_user_points
  cases hfind : findUP db u e with
  | none =>
      have hk : upKey u e ⟨u, e, pa, pl, pk, pa + pl + pk⟩ = true := by
        simp [upKey]
      rw [findUP] at hfind
      simp [hfind, artworkPts, likePts, attackPts,
        totalPts, findUP, List.find?_cons_of_pos _ hk]
  | some r =>
      have hf : KeyPres (rpcMerge pa pl pk) := fun r => ⟨rfl, rfl⟩
      have hsame := applyAtUP_find_same u e hf db.user_points
      rw [findUP] at hfind
      simp [hfind, artworkPts, likePts,
        attackPts, totalPts, findUP, hsame, rpcMerge]

/-- A row untouched by `update_user_points` keeps its lookup result. -/
theorem rpc_other (db : DB) (u e u' e' : Nat) (pa pl pk : Int)
    (hne : ¬(u' = u ∧ e' = e)) :
    findUP (update_user_points db u e pa pl pk) u' e' =
      findUP db u' e' := by
  unfold update_user_points
  cases hfind : findUP db u e with
  | none =>
      have hk : upKey u' e' ⟨u, e, pa, pl, pk, pa + pl + pk⟩ = false := by
        cases h : upKey u' e' ⟨u, e, pa, pl, pk, pa + pl + pk⟩ with
        | false => rfl
        | true =>
            rcases upKey_eq_true.mp h with ⟨h1, h2⟩
            exact absurd ⟨h1.symm, h2.symm⟩ hne
      rw [findUP] at hfind
      simp only [hfind, findUP]
      exact List.find?_cons_of_neg _ (by simp [hk])
  | some r =>
      have hf : KeyPres (rpcMerge pa pl pk) := fun r => ⟨rfl, rfl⟩
      rw [findUP] at hfind
      simp [hfind, findUP,
        applyAtUP_find_other u e u' e' hne _ hf]

/-- Shared concrete fixture: one artwork (id 1) owned by user 1 in
event 0, no interactions and no points yet. -/
def artDB : DB := { initDB with artworks := [⟨1, 1, 0, 0, 0⟩] }

/-- C3: evaluation of the artwork-submission award at a failing input.
Both award paths are blind increments with no idempotency key: invoking
the ArtworkUpload.tsx award (`update_user_points` with
`p_artwork_points = 5`) twice for the same artwork leaves
`artwork_points = 10`, not 5, and invoking the EventGallery.tsx
`handleUploadSuccess` upsert (+3) twice leaves 6, not 3 — the award is
not idempotent per artwork. -/
theorem c3_award_not_idempotent :
    artworkPts (update_user_points artDB 1 0 5 0 0) 1 0 = 5 ∧
    artworkPts (update_user_points
      (update_user_points artDB 1 0 5 0 0) 1 0 5 0 0) 1 0 = 10 ∧
    artworkPts (handleUploadSuccess artDB 1 0) 1 0 = 3 ∧
    artworkPts (handleUploadSuccess
      (handleUploadSuccess artDB 1 0) 1 0) 1 0 = 6 := by
  decide

/-- Effect of the `update_fight_points` trigger when the target artwork
exists: exactly +2 on the attacker's `attack_points` and `points_total`
in the artwork's event, row created as `(0, 0, 2, 2)` when absent, all
other tables untouched. -/
theorem fight_effect (db : DB) (attacker target : Nat)
    (a0 : ArtworkRow)
    (hfind : db.artworks.find? (fun a => a.id == target) = some a0) :
    attackPts (update_fight_points db attacker target) attacker
        a0.event_id = attackPts db attacker a0.event_id + 2 ∧
    totalPts (update_fight_points db attacker target) attacker
        a0.event_id = totalPts db attacker a0.event_id + 2 ∧
    artworkPts (update_fight_points db attacker target) attacker
        a0.event_id = artworkPts db attacker a0.event_id ∧
    likePts (update_fight_points db attacker target) attacker
        a0.event_id = likePts db attacker a0.event_id ∧
    (update_fight_points db attacker target).fight_artworks =
      db.fight_artworks ∧
    (update_fight_points db attacker target).artworks = db.artworks ∧
    (update_fight_points db attacker target).interactions =
      db.interactions ∧
    (findUP db attacker a0.event_id = none →
      findUP (update_fight_points db attacker target) attacker
        a0.event_id = some ⟨attacker, a0.event_id, 0, 0, 2, 2⟩) := by
  unfold update_fight_points
  rw [hfind]
  cases hrow : findUP db attacker a0.event_id with
  | none =>
      have hk : upKey attacker a0.event_id
          ⟨attacker, a0.event_id, 0, 0, 2, 2⟩ = true := by
        simp [upKey]
      rw [findUP] at hrow
      simp [hrow, attackPts, totalPts, artworkPts, likePts, findUP,
        List.find?_cons_of_pos _ hk]
  | some r =>
      have hf : KeyPres fightMerge := fun r => ⟨rfl, rfl⟩
      have hsame := applyAtUP_find_same attacker a0.event_id hf
        db.user_points
      rw [findUP] at hrow
      simp [hrow, attackPts, totalPts, artworkPts, likePts, findUP,
        hsame, fightMerge]

/-- C10: on every insert of a `fight_artworks` row the
`update_fight_points` trigger adds exactly 2 to the attacker's
`attack_points` and `points_total` for the target artwork's event,
creating the `user_points` row as `(0, 0, 2, 2)` when absent; the insert
itself always appends the row — there is no uniqueness restriction on
`(attacker_id, target_artwork_id)` — and a single `launchAttack`
(part_002), which also calls `update_user_points` with
`p_attack_points = 3`, increases the attacker's `points_total` by 5 in
total. -/
theorem c10_fight_attack (db : DB) (u aid e : Nat)
    (ha : artworkEvent db aid = some e)
    (hrow : totalPts db u e =
      artworkPts db u e + likePts db u e + attackPts db u e) :
    (settle (insertFightArtwork db u aid) db).fight_artworks =
      ⟨u, aid⟩ :: db.fight_artworks ∧
    attackPts (settle (insertFightArtwork db u aid) db) u e =
      attackPts db u e + 2 ∧
    totalPts (settle (insertFightArtwork db u aid) db) u e =
      totalPts db u e + 2 ∧
    (findUP db u e = none →
      findUP (settle (insertFightArtwork db u aid) db) u e =
        some ⟨u, e, 0, 0, 2, 2⟩) ∧
    attackPts (settle (launchAttack db u aid e) db) u e =
      attackPts db u e + 5 ∧
    totalPts (settle (launchAttack db u aid e) db) u e =
      totalPts db u e + 5 := by
  rcases Option.map_eq_some'.mp ha with ⟨a0, hfind, hev⟩
  have hmem := List.mem_of_find?_eq_some hfind
  have hpred := List.find?_some hfind
  have hany : db.artworks.any (fun a => a.id == aid) = true :=
    List.any_eq_true.mpr ⟨a0, hmem, hpred⟩
  have hinsert : insertFightArtwork db u aid = Except.ok
      (update_fight_points
        { db with fight_artworks := ⟨u, aid⟩ :: db.fight_artworks }
        u aid) := by
    simp [insertFightArtwork, hany]
  set dbF : DB :=
    { db with fight_artworks := ⟨u, aid⟩ :: db.fight_artworks } with hdbF
  have hfindF : dbF.artworks.find? (fun a => a.id == aid) = some a0 :=
    hfind
  have heff := fight_effect dbF u aid a0 hfindF
  rw [hev] at heff
  have hAttF : attackPts dbF u e = attackPts db u e := rfl
  have hTotF : totalPts dbF u e = totalPts db u e := rfl
  have hArtF : artworkPts dbF u e = artworkPts db u e := rfl
  have hLikF : likePts dbF u e = likePts db u e := rfl
  have hFindF : findUP dbF u e = findUP db u e := rfl
  set db2 : DB := update_fight_points dbF u aid with hdb2
  have hlaunch : launchAttack db u aid e = Except.ok
      (update_user_points db2 u e 0 0 3) := by
    rw [launchAttack, hinsert]
  have hrpc := rpc_effect db2 u e 0 0 3
  refine ⟨?_, ?_, ?_, ?_, ?_, ?_⟩
  · rw [hinsert]
    exact heff.2.2.2.2.1
  · rw [hinsert]
    show attackPts db2 u e = attackPts db u e + 2
    rw [heff.1, hAttF]
  · rw [hinsert]
    show totalPts db2 u e = totalPts db u e + 2
    rw [heff.2.1, hTotF]
  · intro hnone
    rw [hinsert]
    show findUP db2 u e = some ⟨u, e, 0, 0, 2, 2⟩
    exact heff.2.2.2.2.2.2.2 (hFindF.trans hnone)
  · rw [hlaunch]
    show attackPts (update_user_points db2 u e 0 0 3) u e =
      attackPts db u e + 5
    rw [hrpc.2.2.1, heff.1, hAttF]
    ring
  · rw [hlaunch]
    show totalPts (update_user_points db2 u e 0 0 3) u e =
      totalPts db u e + 5
    rw [hrpc.2.2.2, heff.1, heff.2.2.1, heff.2.2.2.1, hAttF, hArtF,
      hLikF, hrow]
    ring

theorem c10_fight_attack_witness :
    totalPts (settle (launchAttack artDB 2 1 0) artDB) 2 0 =
      totalPts artDB 2 0 + 5 ∧
    totalPts (settle (launchAttack (settle (launchAttack artDB 2 1 0)
      artDB) 2 1 0) (settle (launchAttack artDB 2 1 0) artDB)) 2 0 =
      totalPts (settle (launchAttack artDB 2 1 0) artDB) 2 0 + 5 := by
  constructor
  · exact (c10_fight_attack artDB 2 1 0 (by decide)
      (by decide)).2.2.2.2.2
  · exact (c10_fight_attack (settle (launchAttack artDB 2 1 0) artDB)
      2 1 0 (by decide) (by decide)).2.2.2.2.2

/-- Whether an `Except`-valued mutation succeeded. -/
def isOkE (r : Except String DB) : Bool :=
  match r with
  | Except.ok _ => true
  | Except.error _ => false

/-- C2: evaluation of the counter invariant at a failing trace.  The
`update_artwork_counts` trigger fires only `AFTER INSERT`, and the
unlike branch of `handleLikeToggle` deletes the `like` interaction row
without any durable counter decrement: after a like the counter and the
row count agree at 1, but after the unlike the row count is 0 while
`likes_count` is still 1 — the like retraction breaks the equality. -/
theorem c2_counter_divergence :
    likesCountOf (settle (handleLikeToggle artDB 2 1 0) artDB) 1 = 1 ∧
    likeRowsOn (settle (handleLikeToggle artDB 2 1 0) artDB) 1 = 1 ∧
    likeRowsOn (settle (handleLikeToggle
      (settle (handleLikeToggle artDB 2 1 0) artDB) 2 1 0)
      (settle (handleLikeToggle artDB 2 1 0) artDB)) 1 = 0 ∧
    likesCountOf (settle (handleLikeToggle
      (settle (handleLikeToggle artDB 2 1 0) artDB) 2 1 0)
      (settle (handleLikeToggle artDB 2 1 0) artDB)) 1 = 1 := by
  decide

/-- Concrete fixture for the toggle-symmetry trace: one artwork (id 1)
owned by user 1 in event 0, the owner already holding 3 artwork
points. -/
def toggleDB : DB :=
  { initDB with
    artworks := [⟨1, 1, 0, 0, 0⟩]
    user_points := [⟨1, 0, 3, 0, 0, 3⟩] }

/-- C4: evaluation of toggle symmetry at a failing trace.  Toggling a
like on and off does return the owner's `like_points` and
`points_total` to their pre-toggle values and leaves no `like`
interaction row, but the artwork's durable `likes_count` ends at 1
instead of its pre-toggle value 0, because the counts trigger has no
DELETE branch. -/
theorem c4_toggle_drift :
    likePts (settle (handleLikeToggle
      (settle (handleLikeToggle toggleDB 2 1 0) toggleDB) 2 1 0)
      (settle (handleLikeToggle toggleDB 2 1 0) toggleDB)) 1 0 =
      likePts toggleDB 1 0 ∧
    totalPts (settle (handleLikeToggle
      (settle (handleLikeToggle toggleDB 2 1 0) toggleDB) 2 1 0)
      (settle (handleLikeToggle toggleDB 2 1 0) toggleDB)) 1 0 =
      totalPts toggleDB 1 0 ∧
    likeRowsOn (settle (handleLikeToggle
      (settle (handleLikeToggle toggleDB 2 1 0) toggleDB) 2 1 0)
      (settle (handleLikeToggle toggleDB 2 1 0) toggleDB)) 1 = 0 ∧
    likesCountOf toggleDB 1 = 0 ∧
    likesCountOf (settle (handleLikeToggle
      (settle (handleLikeToggle toggleDB 2 1 0) toggleDB) 2 1 0)
      (settle (handleLikeToggle toggleDB 2 1 0) toggleDB)) 1 = 1 := by
  decide

/-- C5 counterexample: a second attack on the same artwork through the
FightArtwork path (`launchAttack`, part_002) does not fail — there is no
uniqueness on `fight_artworks` and no interaction row is written on this
path — and it awards 5 further points to the attacker instead of
none. -/
theorem c5_second_fight_attack_succeeds :
    isOkE (launchAttack (settle (launchAttack artDB 2 1 0) artDB)
      2 1 0) = true ∧
    attackPts (settle (launchAttack artDB 2 1 0) artDB) 2 0 = 5 ∧
    attackPts (settle (launchAttack (settle (launchAttack artDB 2 1 0)
      artDB) 2 1 0) (settle (launchAttack artDB 2 1 0) artDB)) 2 0 =
      10 := by
  decide

/-- C5 (amended): on the Interaction-based attack path
(`handleAttack` in AttackDialog.tsx), a second attack attempt on an
already-attacked artwork fails on the
`(artwork_id, user_id, interaction_type)` unique constraint before any
point mutation: the caller receives an error, the durable state is
unchanged, and no additional points are awarded. -/
theorem c5_attack_already_attacked (db : DB) (u aid e : Nat)
    (hdup : interactionExists db aid u IType.attack = true) :
    handleAttack db u aid e = Except.error "duplicate interaction" ∧
    settle (handleAttack db u aid e) db = db ∧
    attackPts (settle (handleAttack db u aid e) db) u e =
      attackPts db u e := by
  have herr : handleAttack db u aid e =
      Except.error "duplicate interaction" := by
    rw [handleAttack, insertInteraction, hdup]
    simp
  refine ⟨herr, ?_, ?_⟩
  · rw [herr]
    rfl
  · rw [herr]
    rfl

theorem c5_attack_already_attacked_witness :
    handleAttack { artDB with interactions := [⟨1, 2, IType.attack⟩] }
      2 1 0 = Except.error "duplicate interaction" :=
  (c5_attack_already_attacked
    { artDB with interactions := [⟨1, 2, IType.attack⟩] } 2 1 0
    (by decide)).1

/-- The guard sequence of `handleAttackClick` in EventGallery.tsx: the
artwork must be in the event's gallery, must not be the acting user's
own, must not belong to the acting user's own team when both teams are
known, and must not have been attacked by the acting user already; only
then does the attack dialog open. -/
def canAttackClick (db : DB) (u aid e : Nat) : Bool :=
  match db.artworks.find? (fun a => a.id == aid && a.event_id == e) with
  | none => false
  | some art =>
    if art.user_id == u then false
    else
      let userTeam := teamOf db u e
      let ownerTeam := teamOf db art.user_id e
      if userTeam.isSome && userTeam == ownerTeam then false
      else !(interactionExists db aid u IType.attack)

/-- C6 counterexample: the global Gallery path (`handleInteraction`,
part_003) performs no self-artwork and no team check — user 1 liking
their own artwork succeeds and mutates durable state. -/
theorem c6_self_like_not_rejected :
    (artDB.artworks.find? (fun a => a.id == 1)).map
      (fun a => a.user_id) = some 1 ∧
    isOkE (handleInteraction artDB 1 1 IType.like) = true ∧
    settle (handleInteraction artDB 1 1 IType.like) artDB ≠ artDB := by
  decide

/-- C6 (amended): on the EventGallery paths the guards do hold — with
the artwork found in the event's gallery, `handleLikeToggle` rejects a
self-like and, when both the acting user's and the owner's team are
known and equal, a same-team like, in both cases with unchanged durable
state; `canAttackClick` is false in the same situations as well. -/
theorem c6_event_gallery_guards (db : DB) (u aid e : Nat)
    (art : ArtworkRow)
    (hfound : db.artworks.find?
      (fun a => a.id == aid && a.event_id == e) = some art) :
    (art.user_id = u →
      handleLikeToggle db u aid e =
        Except.error "cannot like your own artwork" ∧
      settle (handleLikeToggle db u aid e) db = db ∧
      canAttackClick db u aid e = false) ∧
    (∀ t : Team, art.user_id ≠ u →
      teamOf db u e = some t →
      teamOf db art.user_id e = some t →
      handleLikeToggle db u aid e =
        Except.error "cannot like artwork from your own team" ∧
      settle (handleLikeToggle db u aid e) db = db ∧
      canAttackClick db u aid e = false) := by
  constructor
  · intro hself
    have h1 : handleLikeToggle db u aid e =
        Except.error "cannot like your own artwork" := by
      rw [handleLikeToggle, hfound]
      simp [hself]
    have h2 : canAttackClick db u aid e = false := by
      rw [canAttackClick, hfound]
      simp [hself]
    exact ⟨h1, by rw [h1]; rfl, h2⟩
  · intro t hne hu ho
    have hbeq : (art.user_id == u) = false := by
      simp [hne]
    have h1 : handleLikeToggle db u aid e =
        Except.error "cannot like artwork from your own team" := by
      rw [handleLikeToggle, hfound]
      simp [hbeq, hu, ho]
    have h2 : canAttackClick db u aid e = false := by
      rw [canAttackClick, hfound]
      simp [hbeq, hu, ho]
    exact ⟨h1, by rw [h1]; rfl, h2⟩

theorem c6_event_gallery_guards_witness :
    handleLikeToggle artDB 1 1 0 =
      Except.error "cannot like your own artwork" ∧
    handleLikeToggle
      { artDB with participants := [⟨0, 1, Team.A⟩, ⟨0, 2, Team.A⟩] }
      2 1 0 = Except.error "cannot like artwork from your own team" := by
  constructor
  · exact ((c6_event_gallery_guards artDB 1 1 0 ⟨1, 1, 0, 0, 0⟩
      (by decide)).1 (by decide)).1
  · exact ((c6_event_gallery_guards
      { artDB with participants := [⟨0, 1, Team.A⟩, ⟨0, 2, Team.A⟩] }
      2 1 0 ⟨1, 1, 0, 0, 0⟩ (by decide)).2 Team.A (by decide)
      (by decide) (by decide)).1

theorem countP_split {α : Type} (p q : α → Bool) (l : List α) :
    l.countP p =
      (l.filter q).countP p + l.countP (fun a => p a && !q a) := by
  induction l with
  | nil => rfl
  | cons x xs ih =>
      rw [List.countP_cons, List.filter_cons]
      by_cases hq : q x
      · by_cases hp : p x <;>
          simp [hq, hp, List.countP_cons, ih] <;> omega
      · by_cases hp : p x <;>
          simp [hq, hp, List.countP_cons, ih] <;> omega

/-- Two artworks of a duplicate-free table with the same id are the same
row. -/
theorem unique_artwork_eq {arts : List ArtworkRow}
    (huniq : arts.Pairwise (fun a b => a.id ≠ b.id))
    {a b : ArtworkRow} (ha : a ∈ arts) (hb : b ∈ arts)
    (hid : a.id = b.id) : a = b := by
  induction arts with
  | nil => cases ha
  | cons x xs ih =>
      rcases List.pairwise_cons.mp huniq with ⟨hx, hxs⟩
      rcases List.mem_cons.mp ha with rfl | ha'
      · rcases List.mem_cons.mp hb with rfl | hb'
        · rfl
        · exact absurd hid (hx b hb')
      · rcases List.mem_cons.mp hb with rfl | hb'
        · exact absurd hid.symm (hx a ha')
        · exact ih hxs ha' hb'

/-- In a `user_points` table with unique `(user_id, event_id)` keys,
every row matching the key of the found row is the found row. -/
theorem unique_up_eq : ∀ {l : List UserPointsRow} {u e : Nat}
    {r0 : UserPointsRow},
    l.Pairwise
      (fun a b => ¬(a.user_id = b.user_id ∧ a.event_id = b.event_id)) →
    l.find? (upKey u e) = some r0 →
    ∀ r ∈ l, upKey u e r = true → r = r0 := by
  intro l
  induction l with
  | nil =>
      intro u e r0 _ hfind
      simp at hfind
  | cons x xs ih =>
      intro u e r0 hp hfind r hr hkey
      rcases List.pairwise_cons.mp hp with ⟨hx, hxs⟩
      cases hcx : upKey u e x with
      | true =>
          rw [List.find?_cons_of_pos _ hcx] at hfind
          injection hfind with h0
          subst h0
          rcases List.mem_cons.mp hr with rfl | hr'
          · rfl
          · rcases upKey_eq_true.mp hcx with ⟨h1, h2⟩
            rcases upKey_eq_true.mp hkey with ⟨h3, h4⟩
            exact absurd ⟨h1.trans h3.symm, h2.trans h4.symm⟩
              (hx r hr')
      | false =>
          rw [List.find?_cons_of_neg _ (by simp [hcx])] at hfind
          rcases List.mem_cons.mp hr with rfl | hr'
          · rw [hkey] at hcx
            cases hcx
          · exact ih hxs hfind r hr' hkey

/-- `bumpCount` changes only the counters: id, owner and event of every
artwork are preserved, so ownership tests are unchanged. -/
theorem any_bumpCount (arts : List ArtworkRow) (ty : IType)
    (aid aid' u e : Nat) :
    (bumpCount ty aid arts).any (fun a =>
        a.id == aid' && a.user_id == u && a.event_id == e) =
      arts.any (fun a =>
        a.id == aid' && a.user_id == u && a.event_id == e) := by
  rw [bumpCount, List.any_map]
  have hfn : ((fun a : ArtworkRow =>
      a.id == aid' && a.user_id == u && a.event_id == e) ∘
      (fun a : ArtworkRow =>
        if a.id == aid then
          match ty with
          | IType.like => { a with likes_count := a.likes_count + 1 }
          | IType.attack =>
              { a with attacks_count := a.attacks_count + 1 }
        else a)) =
      (fun a : ArtworkRow =>
        a.id == aid' && a.user_id == u && a.event_id == e) := by
    funext a
    by_cases h : a.id = aid <;> cases ty <;> simp [h]
  rw [hfn]

theorem likeCount_bumpCount (arts : List ArtworkRow)
    (ints : List InteractionRow) (ty : IType) (aid u e : Nat) :
    likeCount (bumpCount ty aid arts) ints u e =
      likeCount arts ints u e := by
  unfold likeCount
  apply List.countP_congr
  intro i _
  simp [any_bumpCount]

/-- Adding an artwork with a fresh id does not change any like count,
as long as every interaction row references an existing artwork. -/
theorem likeCount_cons_artwork (arts : List ArtworkRow)
    (ints : List InteractionRow) (u e : Nat) (a0 : ArtworkRow)
    (hfk : ∀ i ∈ ints, ∃ a ∈ arts, a.id = i.artwork_id)
    (hfresh : arts.any (fun a => a.id == a0.id) = false) :
    likeCount (a0 :: arts) ints u e = likeCount arts ints u e := by
  unfold likeCount
  apply List.countP_congr
  intro i hi
  rcases hfk i hi with ⟨a, ha, haid⟩
  have hne : a0.id ≠ i.artwork_id := by
    intro hcontra
    have : arts.any (fun a => a.id == a0.id) = true :=
      List.any_eq_true.mpr ⟨a, ha, by simp [haid, hcontra]⟩
    rw [this] at hfresh
    cases hfresh
  simp [List.any_cons, hne]

/-- Transport of the invariant along equality of the three tables it
mentions. -/
theorem inv_congr (db db' : DB)
    (hu : db'.user_points = db.user_points)
    (ha : db'.artworks = db.artworks)
    (hi : db'.interactions = db.interactions) (h : Inv db) : Inv db' := by
  refine ⟨?_, ?_, ?_, ?_, ?_, ?_⟩
  · rw [hu]
    exact h.total_eq
  · rw [hu]
    exact h.nonneg
  · intro u e
    have : likePts db' u e = likePts db u e := by
      rw [likePts, likePts, findUP, findUP, hu]
    rw [ha, hi, this]
    exact h.like_ge u e
  · rw [hi, ha]
    exact h.fk
  · rw [ha]
    exact h.uniq
  · rw [hu]
    exact h.upUniq

theorem ite_keyPres (u e : Nat) {f : UserPointsRow → UserPointsRow}
    (hf : KeyPres f) :
    KeyPres (fun r => if upKey u e r then f r else r) := by
  intro r
  cases hk : upKey u e r <;> simp [hk, (hf r).1, (hf r).2]

theorem upUniq_applyAtUP {l : List UserPointsRow} {u e : Nat}
    {f : UserPointsRow → UserPointsRow} (hf : KeyPres f)
    (h : l.Pairwise
      (fun a b => ¬(a.user_id = b.user_id ∧ a.event_id = b.event_id))) :
    (applyAtUP u e f l).Pairwise
      (fun a b => ¬(a.user_id = b.user_id ∧ a.event_id = b.event_id)) := by
  rw [applyAtUP]
  refine List.pairwise_map.mpr (h.imp ?_)
  intro a b hab hcontra
  apply hab
  have ka := ite_keyPres u e hf a
  have kb := ite_keyPres u e hf b
  exact ⟨(ka.1.symm.trans hcontra.1).trans kb.1,
    (ka.2.symm.trans hcontra.2).trans kb.2⟩

theorem likePts_set (db : DB) (L : List UserPointsRow) (u e : Nat) :
    likePts { db with user_points := L } u e =
      match L.find? (upKey u e) with
      | some r => r.like_points
      | none => 0 := rfl

theorem likePts_mk (ev : List EventRow) (ps : List ParticipantRow)
    (arts : List ArtworkRow) (ints : List InteractionRow)
    (fa : List FightRow) (L : List UserPointsRow) (u e : Nat) :
    likePts ⟨ev, ps, arts, ints, fa, L⟩ u e =
      match L.find? (upKey u e) with
      | some r => r.like_points
      | none => 0 := rfl

theorem forall_applyAtUP {P : UserPointsRow → Prop} {u e : Nat}
    {f : UserPointsRow → UserPointsRow} {l : List UserPointsRow}
    (hall : ∀ r ∈ l, P r)
    (hf : ∀ r ∈ l, upKey u e r = true → P (f r)) :
    ∀ s ∈ applyAtUP u e f l, P s := by
  intro s hs
  rcases mem_applyAtUP hs with ⟨r, hr, rfl⟩
  cases hk : upKey u e r with
  | true =>
      simp only [hk, if_true]
      exact hf r hr hk
  | false =>
      simp only [hk, Bool.false_eq_true, if_false]
      exact hall r hr

theorem rpc_tables (db : DB) (u e : Nat) (pa pl pk : Int) :
    (update_user_points db u e pa pl pk).artworks = db.artworks ∧
    (update_user_points db u e pa pl pk).interactions =
      db.interactions ∧
    (update_user_points db u e pa pl pk).participants =
      db.participants ∧
    (update_user_points db u e pa pl pk).fight_artworks =
      db.fight_artworks ∧
    (update_user_points db u e pa pl pk).events = db.events := by
  unfold update_user_points
  cases findUP db u e <;> exact ⟨rfl, rfl, rfl, rfl, rfl⟩

/-- The stored procedure preserves the scoring invariant whenever the
deltas are the non-negative rewards of the code paths (which never pass
a `like_points` delta). -/
theorem inv_rpc {db : DB} (h : Inv db) (u e : Nat) (pa pk : Int)
    (hpa : 0 ≤ pa) (hpk : 0 ≤ pk) :
    Inv (update_user_points db u e pa 0 pk) := by
  have htab := rpc_tables db u e pa 0 pk
  have hlike : ∀ u' e',
      likePts (update_user_points db u e pa 0 pk) u' e' =
        likePts db u' e' := by
    intro u' e'
    by_cases hk : u' = u ∧ e' = e
    · rcases hk with ⟨rfl, rfl⟩
      have := (rpc_effect db u' e' pa 0 pk).2.1
      omega
    · rw [likePts, likePts, rpc_other db u e u' e' pa 0 pk hk]
  have hup : (∀ r ∈ (update_user_points db u e pa 0 pk).user_points,
      r.points_total =
        r.artwork_points + r.like_points + r.attack_points) ∧
      (∀ r ∈ (update_user_points db u e pa 0 pk).user_points,
        0 ≤ r.artwork_points ∧ 0 ≤ r.like_points ∧
          0 ≤ r.attack_points) ∧
      (update_user_points db u e pa 0 pk).user_points.Pairwise
        (fun a b =>
          ¬(a.user_id = b.user_id ∧ a.event_id = b.event_id)) := by
    cases hfind : findUP db u e with
    | none =>
        have hdb : update_user_points db u e pa 0 pk =
            { db with user_points :=
                ⟨u, e, pa, 0, pk, pa + 0 + pk⟩ :: db.user_points } := by
          unfold update_user_points
          rw [hfind]
        rw [hdb]
        have hnone : ∀ r ∈ db.user_points, ¬(upKey u e r = true) := by
          rw [findUP] at hfind
          exact List.find?_eq_none.mp hfind
        refine ⟨?_, ?_, ?_⟩
        · intro r hr
          rcases List.mem_cons.mp hr with rfl | hr'
          · rfl
          · exact h.total_eq r hr'
        · intro r hr
          rcases List.mem_cons.mp hr with rfl | hr'
          · exact ⟨hpa, le_refl 0, hpk⟩
          · exact h.nonneg r hr'
        · refine List.pairwise_cons.mpr ⟨?_, h.upUniq⟩
          intro b hb hcontra
          exact hnone b hb (upKey_eq_true.mpr
            ⟨hcontra.1.symm, hcontra.2.symm⟩)
    | some r0 =>
        have hdb : update_user_points db u e pa 0 pk =
            { db with user_points :=
                applyAtUP u e (rpcMerge pa 0 pk) db.user_points } := by
          unfold update_user_points
          rw [hfind]
        rw [hdb]
        have hf : KeyPres (rpcMerge pa 0 pk) := fun r => ⟨rfl, rfl⟩
        refine ⟨?_, ?_, ?_⟩
        · refine forall_applyAtUP h.total_eq ?_
          intro r hr _
          have := h.total_eq r hr
          simp only [rpcMerge]
          omega
        · refine forall_applyAtUP h.nonneg ?_
          intro r hr _
          have := h.nonneg r hr
          simp only [rpcMerge]
          omega
        · exact upUniq_applyAtUP hf h.upUniq
  refine ⟨hup.1, hup.2.1, ?_, ?_, ?_, hup.2.2⟩
  · intro u' e'
    rw [htab.1, htab.2.1, hlike u' e']
    exact h.like_ge u' e'
  · rw [htab.2.1, htab.1]
    exact h.fk
  · rw [htab.1]
    exact h.uniq

theorem upload_tables (db : DB) (u e : Nat) :
    (handleUploadSuccess db u e).artworks = db.artworks ∧
    (handleUploadSuccess db u e).interactions = db.interactions := by
  unfold handleUploadSuccess
  cases findUP db u e <;> exact ⟨rfl, rfl⟩

/-- The EventGallery client-side upload award preserves the scoring
invariant. -/
theorem inv_upload {db : DB} (h : Inv db) (u e : Nat) :
    Inv (handleUploadSuccess db u e) := by
  have htab := upload_tables db u e
  cases hfind : findUP db u e with
  | none =>
      have hca : artworkPts db u e = 0 := by
        simp [artworkPts, hfind]
      have hct : totalPts db u e = 0 := by
        simp [totalPts, hfind]
      have hdb : handleUploadSuccess db u e =
          { db with user_points :=
              ⟨u, e, artworkPts db u e + 3, 0, 0, totalPts db u e + 3⟩
                :: db.user_points } := by
        unfold handleUploadSuccess
        rw [hfind]
      have hnone : ∀ r ∈ db.user_points, ¬(upKey u e r = true) := by
        rw [findUP] at hfind
        exact List.find?_eq_none.mp hfind
      have hkpos : upKey u e
          (⟨u, e, artworkPts db u e + 3, 0, 0, totalPts db u e + 3⟩ :
            UserPointsRow) = true := by
        simp [upKey]
      refine ⟨?_, ?_, ?_, ?_, ?_, ?_⟩
      · rw [hdb]
        intro r hr
        rcases List.mem_cons.mp hr with rfl | hr'
        · simp [hca, hct]
        · exact h.total_eq r hr'
      · rw [hdb]
        intro r hr
        rcases List.mem_cons.mp hr with rfl | hr'
        · refine ⟨?_, le_refl 0, le_refl 0⟩
          show (0 : Int) ≤ artworkPts db u e + 3
          rw [hca]
          omega
        · exact h.nonneg r hr'
      · intro u' e'
        rw [htab.1, htab.2]
        have hbase := h.like_ge u' e'
        have hlike : likePts (handleUploadSuccess db u e) u' e' =
            likePts db u' e' := by
          rw [hdb]
          rw [likePts_set]
          by_cases hk : u' = u ∧ e' = e
          · rcases hk with ⟨rfl, rfl⟩
            rw [List.find?_cons_of_pos _ hkpos]
            simp [likePts, hfind]
          · have hkey : upKey u' e'
                (⟨u, e, artworkPts db u e + 3, 0, 0,
                  totalPts db u e + 3⟩ : UserPointsRow) = false := by
              cases hc : upKey u' e'
                  (⟨u, e, artworkPts db u e + 3, 0, 0,
                    totalPts db u e + 3⟩ : UserPointsRow) with
              | false => rfl
              | true =>
                  rcases upKey_eq_true.mp hc with ⟨h1, h2⟩
                  exact absurd ⟨h1.symm, h2.symm⟩ hk
            rw [List.find?_cons_of_neg _ (by simp [hkey])]
            rfl
        rw [hlike]
        exact hbase
      · rw [htab.2, htab.1]
        exact h.fk
      · rw [htab.1]
        exact h.uniq
      · rw [hdb]
        refine List.pairwise_cons.mpr ⟨?_, h.upUniq⟩
        intro b hb hcontra
        exact hnone b hb (upKey_eq_true.mpr
          ⟨hcontra.1.symm, hcontra.2.symm⟩)
  | some r0 =>
      have hmem0 : r0 ∈ db.user_points := by
        rw [findUP] at hfind
        exact List.mem_of_find?_eq_some hfind
      have hca : artworkPts db u e = r0.artwork_points := by
        simp [artworkPts, hfind]
      have hct : totalPts db u e = r0.points_total := by
        simp [totalPts, hfind]
      have hf : KeyPres (uploadMerge (artworkPts db u e)
          (totalPts db u e)) := fun r => ⟨rfl, rfl⟩
      have hdb : handleUploadSuccess db u e =
          { db with user_points :=
              applyAtUP u e (uploadMerge (artworkPts db u e)
                (totalPts db u e)) db.user_points } := by
        unfold handleUploadSuccess
        rw [hfind]
      have heq : ∀ r ∈ db.user_points, upKey u e r = true → r = r0 := by
        rw [findUP] at hfind
        exact unique_up_eq h.upUniq hfind
      refine ⟨?_, ?_, ?_, ?_, ?_, ?_⟩
      · rw [hdb]
        refine forall_applyAtUP h.total_eq ?_
        intro r hr hkey
        rcases heq r hr hkey with rfl
        have := h.total_eq r hr
        simp only [uploadMerge, hca, hct]
        omega
      · rw [hdb]
        refine forall_applyAtUP h.nonneg ?_
        intro r hr hkey
        rcases heq r hr hkey with rfl
        have := h.nonneg r hr
        simp only [uploadMerge, hca, hct]
        omega
      · intro u' e'
        rw [htab.1, htab.2]
        have hbase := h.like_ge u' e'
        have hlike : likePts (handleUploadSuccess db u e) u' e' =
            likePts db u' e' := by
          rw [hdb, likePts_set]
          by_cases hk : u' = u ∧ e' = e
          · rcases hk with ⟨rfl, rfl⟩
            rw [applyAtUP_find_same u' e' hf db.user_points]
            rw [findUP] at hfind
            rw [hfind]
            simp [uploadMerge, likePts, findUP, hfind]
          · rw [applyAtUP_find_other u e u' e' hk _ hf db.user_points]
            rfl
        rw [hlike]
        exact hbase
      · rw [htab.2, htab.1]
        exact h.fk
      · rw [htab.1]
        exact h.uniq
      · rw [hdb]
        exact upUniq_applyAtUP hf h.upUniq

/-- Inserting a fresh artwork preserves the scoring invariant. -/
theorem inv_insertArtwork {db : DB} (h : Inv db) (aid owner e : Nat)
    {db1 : DB} (hins : insertArtwork db aid owner e = some db1) :
    Inv db1 := by
  unfold insertArtwork at hins
  cases hex : db.artworks.any (fun a => a.id == aid) with
  | true =>
      rw [hex] at hins
      simp at hins
  | false =>
      rw [hex] at hins
      simp only [Bool.false_eq_true, if_false, Option.some.injEq]
        at hins
      subst hins
      have hfresh : ∀ a ∈ db.artworks, a.id ≠ aid := by
        intro a ha hcontra
        have : db.artworks.any (fun a => a.id == aid) = true :=
          List.any_eq_true.mpr ⟨a, ha, by simp [hcontra]⟩
        rw [this] at hex
        cases hex
      refine ⟨h.total_eq, h.nonneg, ?_, ?_, ?_, h.upUniq⟩
      · intro u' e'
        have hcnt : likeCount
            ((⟨aid, owner, e, 0, 0⟩ : ArtworkRow) :: db.artworks)
            db.interactions u' e' =
            likeCount db.artworks db.interactions u' e' := by
          refine likeCount_cons_artwork db.artworks db.interactions
            u' e' ⟨aid, owner, e, 0, 0⟩ h.fk ?_
          cases hc : db.artworks.any
              (fun a => a.id ==
                (⟨aid, owner, e, 0, 0⟩ : ArtworkRow).id) with
          | false => rfl
          | true =>
              rcases List.any_eq_true.mp hc with ⟨a, ha, hpa⟩
              exact absurd (by simpa using hpa) (hfresh a ha)
        show (likeCount
            ((⟨aid, owner, e, 0, 0⟩ : ArtworkRow) :: db.artworks)
            db.interactions u' e' : Int) ≤ likePts db u' e'
        rw [hcnt]
        exact h.like_ge u' e'
      · intro i hi
        rcases h.fk i hi with ⟨a, ha, haid⟩
        exact ⟨a, List.mem_cons_of_mem _ ha, haid⟩
      · refine List.pairwise_cons.mpr ⟨?_, h.uniq⟩
        intro b hb hcontra
        exact hfresh b hb hcontra.symm

theorem mem_bumpCount {arts : List ArtworkRow} {ty : IType} {aid : Nat}
    {a : ArtworkRow} (ha : a ∈ arts) :
    ∃ b ∈ bumpCount ty aid arts, b.id = a.id := by
  rw [bumpCount]
  refine ⟨_, List.mem_map_of_mem _ ha, ?_⟩
  by_cases hc : a.id = aid <;> cases ty <;> simp [hc]

theorem uniq_bumpCount {arts : List ArtworkRow} {ty : IType}
    {aid : Nat} (h : arts.Pairwise (fun a b => a.id ≠ b.id)) :
    (bumpCount ty aid arts).Pairwise (fun a b => a.id ≠ b.id) := by
  rw [bumpCount]
  refine List.pairwise_map.mpr (h.imp ?_)
  intro a b hab
  by_cases hca : a.id = aid <;> by_cases hcb : b.id = aid <;>
    cases ty <;> simpa [hca, hcb] using hab

/-- Inserting an `attack` interaction row (and firing the counts
trigger) preserves the scoring invariant: attack rows never enter the
like count and never touch `user_points`. -/
theorem inv_insertAttackRow {db : DB} (h : Inv db) (aid u : Nat)
    {db1 : DB}
    (hins : insertInteraction db aid u IType.attack = Except.ok db1) :
    Inv db1 := by
  unfold insertInteraction at hins
  cases hdup : interactionExists db aid u IType.attack with
  | true =>
      rw [hdup] at hins
      simp at hins
  | false =>
      rw [hdup] at hins
      cases hex : db.artworks.any (fun a => a.id == aid) with
      | false =>
          rw [hex] at hins
          simp at hins
      | true =>
          rw [hex] at hins
          simp only [Bool.false_eq_true, if_false, if_true,
            Except.ok.injEq] at hins
          subst hins
          refine ⟨h.total_eq, h.nonneg, ?_, ?_, ?_, h.upUniq⟩
          · intro u' e'
            show (likeCount (bumpCount IType.attack aid db.artworks)
              ((⟨aid, u, IType.attack⟩ : InteractionRow) ::
                db.interactions) u' e' : Int) ≤ likePts db u' e'
            rw [likeCount_bumpCount]
            have hcons : likeCount db.artworks
                ((⟨aid, u, IType.attack⟩ : InteractionRow) ::
                  db.interactions) u' e' =
                likeCount db.artworks db.interactions u' e' := by
              unfold likeCount
              rw [List.countP_cons]
              simp
            rw [hcons]
            exact h.like_ge u' e'
          · show ∀ i ∈ ((⟨aid, u, IType.attack⟩ : InteractionRow) ::
                db.interactions),
              ∃ a ∈ bumpCount IType.attack aid db.artworks,
                a.id = i.artwork_id
            intro i hi
            rcases List.mem_cons.mp hi with rfl | hi'
            · rcases List.any_eq_true.mp hex with ⟨a, ha, hpa⟩
              rcases mem_bumpCount ha with ⟨b, hb, hbid⟩
              exact ⟨b, hb, by simpa [hbid] using hpa⟩
            · rcases h.fk i hi' with ⟨a, ha, haid⟩
              rcases mem_bumpCount ha with ⟨b, hb, hbid⟩
              exact ⟨b, hb, hbid.trans haid⟩
          · show (bumpCount IType.attack aid db.artworks).Pairwise
              (fun a b => a.id ≠ b.id)
            exact uniq_bumpCount h.uniq

/-- The AttackDialog attack registration preserves the scoring
invariant. -/
theorem inv_handleAttack {db : DB} (h : Inv db) (u aid e : Nat) :
    Inv (settle (handleAttack db u aid e) db) := by
  unfold handleAttack
  cases hins : insertInteraction db aid u IType.attack with
  | error m => exact h
  | ok db1 =>
      show Inv (update_user_points db1 u e 0 0 3)
      exact inv_rpc (inv_insertAttackRow h aid u hins) u e 0 3
        (le_refl 0) (by omega)

/-- The `update_fight_points` trigger preserves the scoring
invariant. -/
theorem inv_update_fight_points {db : DB} (h : Inv db)
    (attacker target : Nat) :
    Inv (update_fight_points db attacker target) := by
  cases hart : db.artworks.find? (fun a => a.id == target) with
  | none =>
      have hdb : update_fight_points db attacker target = db := by
        unfold update_fight_points
        rw [hart]
      rw [hdb]
      exact h
  | some a0 =>
      cases hfind : findUP db attacker a0.event_id with
      | none =>
          have hdb : update_fight_points db attacker target =
              { db with user_points :=
                  ⟨attacker, a0.event_id, 0, 0, 2, 2⟩ ::
                    db.user_points } := by
            unfold update_fight_points
            rw [hart]
            simp only [hfind]
          rw [hdb]
          have hnone : ∀ r ∈ db.user_points,
              ¬(upKey attacker a0.event_id r = true) := by
            rw [findUP] at hfind
            exact List.find?_eq_none.mp hfind
          refine ⟨?_, ?_, ?_, h.fk, h.uniq, ?_⟩
          · intro r hr
            rcases List.mem_cons.mp hr with rfl | hr'
            · rfl
            · exact h.total_eq r hr'
          · intro r hr
            rcases List.mem_cons.mp hr with rfl | hr'
            · exact ⟨le_refl 0, le_refl 0, show (0 : Int) ≤ 2 by norm_num⟩
            · exact h.nonneg r hr'
          · intro u' e'
            have hbase := h.like_ge u' e'
            show (likeCount db.artworks db.interactions u' e' : Int) ≤
              likePts { db with user_points :=
                ⟨attacker, a0.event_id, 0, 0, 2, 2⟩ ::
                  db.user_points } u' e'
            rw [likePts_set]
            by_cases hk : u' = attacker ∧ e' = a0.event_id
            · have hpos : upKey u' e'
                  (⟨attacker, a0.event_id, 0, 0, 2, 2⟩ :
                    UserPointsRow) = true := by
                simp [upKey, hk.1, hk.2]
              rw [List.find?_cons_of_pos _ hpos]
              have hold : likePts db u' e' = 0 := by
                rw [hk.1, hk.2]
                simp [likePts, hfind]
              rw [hold] at hbase
              exact hbase
            · have hkey : upKey u' e'
                  (⟨attacker, a0.event_id, 0, 0, 2, 2⟩ :
                    UserPointsRow) = false := by
                cases hc : upKey u' e'
                    (⟨attacker, a0.event_id, 0, 0, 2, 2⟩ :
                      UserPointsRow) with
                | false => rfl
                | true =>
                    rcases upKey_eq_true.mp hc with ⟨h1, h2⟩
                    exact absurd ⟨h1.symm, h2.symm⟩ hk
              rw [List.find?_cons_of_neg _ (by simp [hkey])]
              exact hbase
          · refine List.pairwise_cons.mpr ⟨?_, h.upUniq⟩
            intro b hb hcontra
            exact hnone b hb (upKey_eq_true.mpr
              ⟨hcontra.1.symm, hcontra.2.symm⟩)
      | some r0 =>
          have hf : KeyPres fightMerge := fun r => ⟨rfl, rfl⟩
          have hdb : update_fight_points db attacker target =
              { db with user_points :=
                  applyAtUP attacker a0.event_id fightMerge db.user_points } := by
            unfold update_fight_points
            rw [hart]
            simp only [hfind]
          rw [hdb]
          refine ⟨?_, ?_, ?_, h.fk, h.uniq, ?_⟩
          · refine forall_applyAtUP h.total_eq ?_
            intro r hr _
            have := h.total_eq r hr
            simp only [fightMerge]
            omega
          · refine forall_applyAtUP h.nonneg ?_
            intro r hr _
            have := h.nonneg r hr
            simp only [fightMerge]
            omega
          · intro u' e'
            rw [← hdb]
            have hart2 : (update_fight_points db attacker
                target).artworks = db.artworks := by
              rw [hdb]
            have hint2 : (update_fight_points db attacker
                target).interactions = db.interactions := by
              rw [hdb]
            rw [hart2, hint2]
            have hfind' : List.find? (upKey attacker a0.event_id)
                db.user_points = some r0 := hfind
            have hlike : likePts (update_fight_points db attacker
                target) u' e' = likePts db u' e' := by
              rw [hdb, likePts_set]
              by_cases hk : u' = attacker ∧ e' = a0.event_id
              · rw [hk.1, hk.2]
                rw [applyAtUP_find_same attacker a0.event_id hf
                  db.user_points]
                rw [hfind']
                simp [likePts, findUP, hfind', fightMerge]
              · rw [applyAtUP_find_other attacker a0.event_id u' e' hk
                  _ hf db.user_points]
                rfl
            rw [hlike]
            exact h.like_ge u' e'
          · exact upUniq_applyAtUP hf h.upUniq

/-- The FightArtwork attack path preserves the scoring invariant. -/
theorem inv_launchAttack {db : DB} (h : Inv db) (u aid e : Nat) :
    Inv (settle (launchAttack db u aid e) db) := by
  unfold launchAttack insertFightArtwork
  cases hex : db.artworks.any (fun a => a.id == aid) with
  | false =>
      simp only [Bool.false_eq_true, if_false]
      exact h
  | true =>
      simp only [if_true]
      show Inv (update_user_points (update_fight_points
        { db with fight_artworks := ⟨u, aid⟩ :: db.fight_artworks }
        u aid) u e 0 0 3)
      have hfight : Inv { db with fight_artworks :=
          ⟨u, aid⟩ :: db.fight_artworks } :=
        inv_congr db _ rfl rfl rfl h
      exact inv_rpc (inv_update_fight_points hfight u aid) u e 0 3
        (le_refl 0) (by omega)

/-- Joining an event preserves the scoring invariant (it touches only
the participants table). -/
theorem inv_join {db : DB} (h : Inv db) (u e : Nat) :
    Inv (settle (joinEvent db u e) db) := by
  unfold joinEvent
  cases hex : db.participants.any
      (fun p => p.event_id == e && p.user_id == u) with
  | true =>
      simp only [if_true]
      exact h
  | false =>
      simp only [Bool.false_eq_true, if_false]
      exact inv_congr db _ rfl rfl rfl h

theorem likeCount_cons_like (arts : List ArtworkRow)
    (ints : List InteractionRow) (aid u0 u' e' : Nat) :
    likeCount arts ((⟨aid, u0, IType.like⟩ : InteractionRow) :: ints)
      u' e' =
      likeCount arts ints u' e' +
        (if arts.any (fun a => a.id == aid && a.user_id == u' &&
            a.event_id == e') = true then 1 else 0) := by
  unfold likeCount
  rw [List.countP_cons]
  cases hc : arts.any (fun a => a.id == aid && a.user_id == u' &&
      a.event_id == e') with
  | true => simp [hc]
  | false => simp [hc]

/-- With unique artwork ids, an ownership test against the id of a
known artwork holds exactly for that artwork's owner and event. -/
theorem any_owner_unique {arts : List ArtworkRow}
    (huniq : arts.Pairwise (fun a b => a.id ≠ b.id))
    {art : ArtworkRow} (hmem : art ∈ arts) (u' e' : Nat) :
    (arts.any (fun a => a.id == art.id && a.user_id == u' &&
      a.event_id == e') = true) ↔
      (u' = art.user_id ∧ e' = art.event_id) := by
  constructor
  · intro hany
    rcases List.any_eq_true.mp hany with ⟨a, ha, hpa⟩
    simp only [Bool.and_eq_true, beq_iff_eq] at hpa
    rcases hpa with ⟨⟨h1, h2⟩, h3⟩
    have haeq := unique_artwork_eq huniq ha hmem h1
    rw [haeq] at h2 h3
    exact ⟨h2.symm, h3.symm⟩
  · intro hk
    refine List.any_eq_true.mpr ⟨art, hmem, ?_⟩
    simp [hk.1, hk.2]

theorem likeCount_removeLike_le (arts : List ArtworkRow)
    (ints : List InteractionRow) (aid u0 u' e' : Nat) :
    likeCount arts (removeLike ints aid u0) u' e' ≤
      likeCount arts ints u' e' := by
  unfold likeCount removeLike
  rw [List.countP_filter]
  refine List.countP_mono_left ?_
  intro x _ hx
  simp only [Bool.and_eq_true] at hx ⊢
  exact hx.1

/-- Deleting an existing like row on an artwork lowers the owner's like
count by at least one. -/
theorem likeCount_removeLike_lt {arts : List ArtworkRow}
    {ints : List InteractionRow} {aid u0 : Nat} {art : ArtworkRow}
    (hmem : art ∈ arts) (hart_id : art.id = aid)
    (hex : ints.any (fun i => i.artwork_id == aid && i.user_id == u0 &&
      i.interaction_type == IType.like) = true) :
    likeCount arts (removeLike ints aid u0) art.user_id
        art.event_id + 1 ≤
      likeCount arts ints art.user_id art.event_id := by
  rcases List.any_eq_true.mp hex with ⟨i0, hi0, hpi0⟩
  simp only [Bool.and_eq_true, beq_iff_eq] at hpi0
  rcases hpi0 with ⟨⟨hi0a, hi0u⟩, hi0t⟩
  have hsplit := countP_split
    (fun i : InteractionRow => i.interaction_type == IType.like &&
      arts.any (fun a => a.id == i.artwork_id &&
        a.user_id == art.user_id && a.event_id == art.event_id))
    (fun i : InteractionRow => !(i.artwork_id == aid &&
      i.user_id == u0 && i.interaction_type == IType.like)) ints
  have hpos : 0 < ints.countP (fun i =>
      (i.interaction_type == IType.like &&
        arts.any (fun a => a.id == i.artwork_id &&
          a.user_id == art.user_id && a.event_id == art.event_id)) &&
      !(!(i.artwork_id == aid && i.user_id == u0 &&
        i.interaction_type == IType.like))) := by
    refine List.countP_pos_iff.mpr ⟨i0, hi0, ?_⟩
    simp [hi0a, hi0u, hi0t]
    exact ⟨art, hmem, ⟨⟨hart_id, rfl⟩, rfl⟩⟩
  unfold likeCount removeLike
  rw [List.countP_filter]
  rw [List.countP_filter] at hsplit
  omega

/-- Unlike with no owner `user_points` row: only the interaction row is
deleted; the invariant survives because the like count only shrinks. -/
theorem inv_unlike_none {db : DB} (h : Inv db) (aid u : Nat) :
    Inv { db with
      interactions := removeLike db.interactions aid u } := by
  refine ⟨h.total_eq, h.nonneg, ?_, ?_, h.uniq, h.upUniq⟩
  · intro u' e'
    show (likeCount db.artworks (removeLike db.interactions aid u)
      u' e' : Int) ≤ likePts db u' e'
    have hle := likeCount_removeLike_le db.artworks db.interactions
      aid u u' e'
    have hbase := h.like_ge u' e'
    omega
  · intro i hi
    exact h.fk i (List.mem_of_mem_filter hi)

/-- Unlike with an owner `user_points` row: the row deletion and the
clamped decrement keep the invariant, because the existing like row
forces `like_points ≥ 1`. -/
theorem inv_unlike_some {db : DB} (h : Inv db) (u aid e : Nat)
    (art : ArtworkRow) (r0 : UserPointsRow)
    (hartfind : db.artworks.find?
      (fun a => a.id == aid && a.event_id == e) = some art)
    (hex : interactionExists db aid u IType.like = true)
    (hfind : findUP db art.user_id e = some r0) :
    Inv { db with
      interactions := removeLike db.interactions aid u
      user_points := applyAtUP art.user_id e unlikeMerge
        db.user_points } := by
  have hartmem := List.mem_of_find?_eq_some hartfind
  have hartpred := List.find?_some hartfind
  simp only [Bool.and_eq_true, beq_iff_eq] at hartpred
  have hart_id : art.id = aid := hartpred.1
  have hart_ev : art.event_id = e := hartpred.2
  have hfind' : List.find? (upKey art.user_id e) db.user_points =
      some r0 := hfind
  have hr0mem : r0 ∈ db.user_points :=
    List.mem_of_find?_eq_some hfind'
  have heq : ∀ r ∈ db.user_points,
      upKey art.user_id e r = true → r = r0 :=
    unique_up_eq h.upUniq hfind'
  have hf : KeyPres unlikeMerge := fun r => ⟨rfl, rfl⟩
  have hlikeval : likePts db art.user_id e = r0.like_points := by
    simp [likePts, hfind]
  have hcnt1 : likeCount db.artworks (removeLike db.interactions aid u)
        art.user_id art.event_id + 1 ≤
      likeCount db.artworks db.interactions art.user_id
        art.event_id := by
    refine likeCount_removeLike_lt hartmem hart_id ?_
    exact hex
  rw [hart_ev] at hcnt1
  have hl1 : 1 ≤ r0.like_points := by
    have hbase := h.like_ge art.user_id e
    rw [hlikeval] at hbase
    omega
  have htot := h.total_eq r0 hr0mem
  have hnn := h.nonneg r0 hr0mem
  have hml : max 0 (r0.like_points - 1) = r0.like_points - 1 :=
    max_eq_right (by omega)
  have hmt : max 0 (r0.points_total - 1) = r0.points_total - 1 :=
    max_eq_right (by omega)
  refine ⟨?_, ?_, ?_, ?_, h.uniq, ?_⟩
  · refine forall_applyAtUP h.total_eq ?_
    intro r hr hkey
    rcases heq r hr hkey with rfl
    simp only [unlikeMerge]
    rw [hml, hmt]
    omega
  · refine forall_applyAtUP h.nonneg ?_
    intro r hr hkey
    refine ⟨(h.nonneg r hr).1, ?_, (h.nonneg r hr).2.2⟩
    exact le_max_left 0 _
  · intro u' e'
    show (likeCount db.artworks (removeLike db.interactions aid u)
      u' e' : Int) ≤
      likePts { db with
        interactions := removeLike db.interactions aid u
        user_points := applyAtUP art.user_id e unlikeMerge
          db.user_points } u' e'
    rw [likePts_mk]
    by_cases hk : u' = art.user_id ∧ e' = e
    · rw [hk.1, hk.2]
      rw [applyAtUP_find_same art.user_id e hf db.user_points, hfind']
      show (likeCount db.artworks (removeLike db.interactions aid u)
        art.user_id e : Int) ≤ max 0 (r0.like_points - 1)
      rw [hml]
      have hbase := h.like_ge art.user_id e
      rw [hlikeval] at hbase
      omega
    · rw [applyAtUP_find_other art.user_id e u' e' hk _ hf
        db.user_points]
      show (likeCount db.artworks (removeLike db.interactions aid u)
        u' e' : Int) ≤ likePts db u' e'
      have hle := likeCount_removeLike_le db.artworks db.interactions
        aid u u' e'
      have hbase := h.like_ge u' e'
      omega
  · intro i hi
    exact h.fk i (List.mem_of_mem_filter hi)
  · exact upUniq_applyAtUP hf h.upUniq

/-- Like with no owner `user_points` row: insert the interaction, bump
the counter, create the owner row as `(0, 1, 0, 1)`. -/
theorem inv_like_none {db : DB} (h : Inv db) (u aid e : Nat)
    (art : ArtworkRow)
    (hartfind : db.artworks.find?
      (fun a => a.id == aid && a.event_id == e) = some art)
    (hfind : findUP db art.user_id e = none) :
    Inv { db with
      interactions := (⟨aid, u, IType.like⟩ : InteractionRow) ::
        db.interactions
      artworks := bumpCount IType.like aid db.artworks
      user_points :=
        (⟨art.user_id, e, 0, likePts db art.user_id e + 1, 0,
          totalPts db art.user_id e + 1⟩ : UserPointsRow) ::
          db.user_points } := by
  have hartmem := List.mem_of_find?_eq_some hartfind
  have hartpred := List.find?_some hartfind
  simp only [Bool.and_eq_true, beq_iff_eq] at hartpred
  have hart_id : art.id = aid := hartpred.1
  have hart_ev : art.event_id = e := hartpred.2
  have h0l : likePts db art.user_id e = 0 := by
    simp [likePts, hfind]
  have h0t : totalPts db art.user_id e = 0 := by
    simp [totalPts, hfind]
  have hnone : ∀ r ∈ db.user_points,
      ¬(upKey art.user_id e r = true) := by
    rw [findUP] at hfind
    exact List.find?_eq_none.mp hfind
  refine ⟨?_, ?_, ?_, ?_, ?_, ?_⟩
  · intro r hr
    rcases List.mem_cons.mp hr with rfl | hr'
    · show totalPts db art.user_id e + 1 =
        0 + (likePts db art.user_id e + 1) + 0
      rw [h0l, h0t]
      omega
    · exact h.total_eq r hr'
  · intro r hr
    rcases List.mem_cons.mp hr with rfl | hr'
    · refine ⟨le_refl 0, ?_, le_refl 0⟩
      show (0 : Int) ≤ likePts db art.user_id e + 1
      rw [h0l]
      omega
    · exact h.nonneg r hr'
  · intro u' e'
    show (likeCount (bumpCount IType.like aid db.artworks)
        ((⟨aid, u, IType.like⟩ : InteractionRow) ::
          db.interactions) u' e' : Int) ≤
      likePts { db with
        interactions := (⟨aid, u, IType.like⟩ : InteractionRow) ::
          db.interactions
        artworks := bumpCount IType.like aid db.artworks
        user_points :=
          (⟨art.user_id, e, 0, likePts db art.user_id e + 1, 0,
            totalPts db art.user_id e + 1⟩ : UserPointsRow) ::
            db.user_points } u' e'
    rw [likePts_mk, likeCount_bumpCount, likeCount_cons_like]
    have hbase := h.like_ge u' e'
    by_cases hk : u' = art.user_id ∧ e' = e
    · rw [hk.1, hk.2]
      have hpos : upKey art.user_id e
          (⟨art.user_id, e, 0, likePts db art.user_id e + 1, 0,
            totalPts db art.user_id e + 1⟩ : UserPointsRow) =
          true := by
        simp [upKey]
      rw [List.find?_cons_of_pos _ hpos]
      show ((likeCount db.artworks db.interactions art.user_id e +
        (if db.artworks.any (fun a => a.id == aid &&
          a.user_id == art.user_id && a.event_id == e) = true
          then 1 else 0) : Nat) : Int) ≤
        likePts db art.user_id e + 1
      have hb2 := h.like_ge art.user_id e
      rw [h0l] at hb2
      rw [h0l]
      by_cases hc : db.artworks.any (fun a => a.id == aid &&
          a.user_id == art.user_id && a.event_id == e) = true
      · rw [if_pos hc]
        omega
      · rw [if_neg hc]
        omega
    · have hkey : upKey u' e'
          (⟨art.user_id, e, 0, likePts db art.user_id e + 1, 0,
            totalPts db art.user_id e + 1⟩ : UserPointsRow) =
          false := by
        cases hc : upKey u' e'
            (⟨art.user_id, e, 0, likePts db art.user_id e + 1, 0,
              totalPts db art.user_id e + 1⟩ : UserPointsRow) with
        | false => rfl
        | true =>
            rcases upKey_eq_true.mp hc with ⟨h1, h2⟩
            exact absurd ⟨h1.symm, h2.symm⟩ hk
      rw [List.find?_cons_of_neg _ (by simp [hkey])]
      have hno : ¬(db.artworks.any (fun a => a.id == aid &&
          a.user_id == u' && a.event_id == e') = true) := by
        intro hc
        rw [← hart_id] at hc
        rcases (any_owner_unique h.uniq hartmem u' e').mp hc with
          ⟨h1, h2⟩
        exact hk ⟨h1, h2.trans hart_ev⟩
      rw [if_neg hno]
      show ((likeCount db.artworks db.interactions u' e' + 0 : Nat) :
        Int) ≤ likePts db u' e'
      omega
  · show ∀ i ∈ ((⟨aid, u, IType.like⟩ : InteractionRow) ::
        db.interactions),
      ∃ a ∈ bumpCount IType.like aid db.artworks, a.id = i.artwork_id
    intro i hi
    rcases List.mem_cons.mp hi with rfl | hi'
    · rcases mem_bumpCount hartmem with ⟨b, hb, hbid⟩
      exact ⟨b, hb, show b.id = aid from hbid.trans hart_id⟩
    · rcases h.fk i hi' with ⟨a, ha, haid⟩
      rcases mem_bumpCount ha with ⟨b, hb, hbid⟩
      exact ⟨b, hb, hbid.trans haid⟩
  · show (bumpCount IType.like aid db.artworks).Pairwise
      (fun a b => a.id ≠ b.id)
    exact uniq_bumpCount h.uniq
  · refine List.pairwise_cons.mpr ⟨?_, h.upUniq⟩
    intro b hb hcontra
    exact hnone b hb (upKey_eq_true.mpr
      ⟨hcontra.1.symm, hcontra.2.symm⟩)

/-- Like with an existing owner `user_points` row: insert the
interaction, bump the counter, overwrite the owner's like points and
total with the read values plus one. -/
theorem inv_like_some {db : DB} (h : Inv db) (u aid e : Nat)
    (art : ArtworkRow) (r0 : UserPointsRow)
    (hartfind : db.artworks.find?
      (fun a => a.id == aid && a.event_id == e) = some art)
    (hfind : findUP db art.user_id e = some r0) :
    Inv { db with
      interactions := (⟨aid, u, IType.like⟩ : InteractionRow) ::
        db.interactions
      artworks := bumpCount IType.like aid db.artworks
      user_points := applyAtUP art.user_id e
        (likeAddMerge (likePts db art.user_id e)
          (totalPts db art.user_id e)) db.user_points } := by
  have hartmem := List.mem_of_find?_eq_some hartfind
  have hartpred := List.find?_some hartfind
  simp only [Bool.and_eq_true, beq_iff_eq] at hartpred
  have hart_id : art.id = aid := hartpred.1
  have hart_ev : art.event_id = e := hartpred.2
  have hfind' : List.find? (upKey art.user_id e) db.user_points =
      some r0 := hfind
  have hr0mem : r0 ∈ db.user_points :=
    List.mem_of_find?_eq_some hfind'
  have heq : ∀ r ∈ db.user_points,
      upKey art.user_id e r = true → r = r0 :=
    unique_up_eq h.upUniq hfind'
  have hf : KeyPres (likeAddMerge (likePts db art.user_id e)
      (totalPts db art.user_id e)) := fun r => ⟨rfl, rfl⟩
  have hlv : likePts db art.user_id e = r0.like_points := by
    simp [likePts, hfind]
  have htv : totalPts db art.user_id e = r0.points_total := by
    simp [totalPts, hfind]
  have htot := h.total_eq r0 hr0mem
  have hnn := h.nonneg r0 hr0mem
  refine ⟨?_, ?_, ?_, ?_, ?_, ?_⟩
  · refine forall_applyAtUP h.total_eq ?_
    intro r hr hkey
    rcases heq r hr hkey with rfl
    simp only [likeAddMerge, hlv, htv]
    omega
  · refine forall_applyAtUP h.nonneg ?_
    intro r hr hkey
    rcases heq r hr hkey with rfl
    simp only [likeAddMerge, hlv, htv]
    omega
  · intro u' e'
    show (likeCount (bumpCount IType.like aid db.artworks)
        ((⟨aid, u, IType.like⟩ : InteractionRow) ::
          db.interactions) u' e' : Int) ≤
      likePts { db with
        interactions := (⟨aid, u, IType.like⟩ : InteractionRow) ::
          db.interactions
        artworks := bumpCount IType.like aid db.artworks
        user_points := applyAtUP art.user_id e
          (likeAddMerge (likePts db art.user_id e)
            (totalPts db art.user_id e)) db.user_points } u' e'
    rw [likePts_mk, likeCount_bumpCount, likeCount_cons_like]
    by_cases hk : u' = art.user_id ∧ e' = e
    · rw [hk.1, hk.2]
      rw [applyAtUP_find_same art.user_id e hf db.user_points, hfind']
      show ((likeCount db.artworks db.interactions art.user_id e +
        (if db.artworks.any (fun a => a.id == aid &&
          a.user_id == art.user_id && a.event_id == e) = true
          then 1 else 0) : Nat) : Int) ≤
        likePts db art.user_id e + 1
      have hb2 := h.like_ge art.user_id e
      by_cases hc : db.artworks.any (fun a => a.id == aid &&
          a.user_id == art.user_id && a.event_id == e) = true
      · rw [if_pos hc]
        omega
      · rw [if_neg hc]
        omega
    · rw [applyAtUP_find_other art.user_id e u' e' hk _ hf
        db.user_points]
      have hno : ¬(db.artworks.any (fun a => a.id == aid &&
          a.user_id == u' && a.event_id == e') = true) := by
        intro hc
        rw [← hart_id] at hc
        rcases (any_owner_unique h.uniq hartmem u' e').mp hc with
          ⟨h1, h2⟩
        exact hk ⟨h1, h2.trans hart_ev⟩
      rw [if_neg hno]
      show ((likeCount db.artworks db.interactions u' e' + 0 : Nat) :
        Int) ≤ likePts db u' e'
      have hbase := h.like_ge u' e'
      omega
  · show ∀ i ∈ ((⟨aid, u, IType.like⟩ : InteractionRow) ::
        db.interactions),
      ∃ a ∈ bumpCount IType.like aid db.artworks, a.id = i.artwork_id
    intro i hi
    rcases List.mem_cons.mp hi with rfl | hi'
    · rcases mem_bumpCount hartmem with ⟨b, hb, hbid⟩
      exact ⟨b, hb, show b.id = aid from hbid.trans hart_id⟩
    · rcases h.fk i hi' with ⟨a, ha, haid⟩
      rcases mem_bumpCount ha with ⟨b, hb, hbid⟩
      exact ⟨b, hb, hbid.trans haid⟩
  · show (bumpCount IType.like aid db.artworks).Pairwise
      (fun a b => a.id ≠ b.id)
    exact uniq_bumpCount h.uniq
  · exact upUniq_applyAtUP hf h.upUniq

/-- The like toggle preserves the scoring invariant on every path. -/
theorem inv_likeToggle {db : DB} (h : Inv db) (u aid e : Nat) :
    Inv (settle (handleLikeToggle db u aid e) db) := by
  cases hart : db.artworks.find?
      (fun a => a.id == aid && a.event_id == e) with
  | none =>
      have hres : handleLikeToggle db u aid e =
          Except.error "artwork not found" := by
        unfold handleLikeToggle
        rw [hart]
      rw [hres]
      exact h
  | some art =>
      cases hself : art.user_id == u with
      | true =>
          have hres : handleLikeToggle db u aid e =
              Except.error "cannot like your own artwork" := by
            unfold handleLikeToggle
            rw [hart]
            simp only [hself, if_true]
          rw [hres]
          exact h
      | false =>
          cases hteam : ((teamOf db u e).isSome &&
              teamOf db u e == teamOf db art.user_id e) with
          | true =>
              have hres : handleLikeToggle db u aid e =
                  Except.error
                    "cannot like artwork from your own team" := by
                unfold handleLikeToggle
                rw [hart]
                simp only [hself, Bool.false_eq_true, if_false, hteam,
                  if_true]
              rw [hres]
              exact h
          | false =>
              cases hex : interactionExists db aid u IType.like with
              | true =>
                  cases hfind : findUP db art.user_id e with
                  | none =>
                      have hfind1 : findUP { db with
                          interactions :=
                            removeLike db.interactions aid u }
                          art.user_id e = none := hfind
                      have hres : handleLikeToggle db u aid e =
                          Except.ok { db with
                            interactions :=
                              removeLike db.interactions aid u } := by
                        unfold handleLikeToggle
                        rw [hart]
                        simp only [hself, Bool.false_eq_true, if_false,
                          hteam, hex, if_true, hfind1]
                      rw [hres]
                      exact inv_unlike_none h aid u
                  | some r0 =>
                      have hfind1 : findUP { db with
                          interactions :=
                            removeLike db.interactions aid u }
                          art.user_id e = some r0 := hfind
                      have hres : handleLikeToggle db u aid e =
                          Except.ok { db with
                            interactions :=
                              removeLike db.interactions aid u
                            user_points := applyAtUP art.user_id e
                              unlikeMerge db.user_points } := by
                        unfold handleLikeToggle
                        rw [hart]
                        simp only [hself, Bool.false_eq_true, if_false,
                          hteam, hex, if_true, hfind1]
                      rw [hres]
                      exact inv_unlike_some h u aid e art r0 hart hex
                        hfind
              | false =>
                  have hany : db.artworks.any
                      (fun a => a.id == aid) = true := by
                    refine List.any_eq_true.mpr
                      ⟨art, List.mem_of_find?_eq_some hart, ?_⟩
                    have hp := List.find?_some hart
                    simp only [Bool.and_eq_true, beq_iff_eq] at hp
                    simp [hp.1]
                  cases hfind : findUP db art.user_id e with
                  | none =>
                      have hfind1 : findUP { db with
                          interactions :=
                            (⟨aid, u, IType.like⟩ : InteractionRow) ::
                              db.interactions
                          artworks :=
                            bumpCount IType.like aid db.artworks }
                          art.user_id e = none := hfind
                      have hres : handleLikeToggle db u aid e =
                          Except.ok { db with
                            interactions := (⟨aid, u, IType.like⟩ :
                              InteractionRow) :: db.interactions
                            artworks :=
                              bumpCount IType.like aid db.artworks
                            user_points :=
                              (⟨art.user_id, e, 0,
                                likePts db art.user_id e + 1, 0,
                                totalPts db art.user_id e + 1⟩ :
                                UserPointsRow) ::
                                db.user_points } := by
                        unfold handleLikeToggle insertInteraction
                        rw [hart]
                        simp only [hself, Bool.false_eq_true, if_false,
                          hteam, hex, hany, if_true]
                        rw [hfind1]
                        rfl
                      rw [hres]
                      exact inv_like_none h u aid e art hart hfind
                  | some r0 =>
                      have hfind1 : findUP { db with
                          interactions :=
                            (⟨aid, u, IType.like⟩ : InteractionRow) ::
                              db.interactions
                          artworks :=
                            bumpCount IType.like aid db.artworks }
                          art.user_id e = some r0 := hfind
                      have hres : handleLikeToggle db u aid e =
                          Except.ok { db with
                            interactions := (⟨aid, u, IType.like⟩ :
                              InteractionRow) :: db.interactions
                            artworks :=
                              bumpCount IType.like aid db.artworks
                            user_points := applyAtUP art.user_id e
                              (likeAddMerge (likePts db art.user_id e)
                                (totalPts db art.user_id e))
                              db.user_points } := by
                        unfold handleLikeToggle insertInteraction
                        rw [hart]
                        simp only [hself, Bool.false_eq_true, if_false,
                          hteam, hex, hany, if_true]
                        rw [hfind1]
                        rfl
                      rw [hres]
                      exact inv_like_some h u aid e art r0 hart hfind

theorem inv_init : Inv initDB := by
  refine ⟨?_, ?_, ?_, ?_, ?_, ?_⟩
  · intro r hr
    cases hr
  · intro r hr
    cases hr
  · intro u e
    show ((0 : Nat) : Int) ≤ 0
    omega
  · intro i hi
    cases hi
  · exact List.Pairwise.nil
  · exact List.Pairwise.nil

/-- Every settled scoring operation preserves the invariant. -/
theorem inv_applyOp {db : DB} (h : Inv db) (op : Op) :
    Inv (applyOp op db) := by
  cases op with
  | submitRPC aid owner e =>
      show Inv (match insertArtwork db aid owner e with
        | none => db
        | some db1 => update_user_points db1 owner e 5 0 0)
      cases hins : insertArtwork db aid owner e with
      | none => exact h
      | some db1 =>
          exact inv_rpc (inv_insertArtwork h aid owner e hins)
            owner e 5 0 (by omega) (le_refl 0)
  | submitClient aid owner e =>
      show Inv (match insertArtwork db aid owner e with
        | none => db
        | some db1 => handleUploadSuccess db1 owner e)
      cases hins : insertArtwork db aid owner e with
      | none => exact h
      | some db1 =>
          exact inv_upload (inv_insertArtwork h aid owner e hins)
            owner e
  | likeToggle u aid e => exact inv_likeToggle h u aid e
  | attackInteract u aid e => exact inv_handleAttack h u aid e
  | fightAttack u aid e => exact inv_launchAttack h u aid e
  | join u e => exact inv_join h u e

/-- Every reachable settled state satisfies the scoring invariant. -/
theorem reachable_inv {db : DB} (h : Reachable db) : Inv db := by
  induction h with
  | init => exact inv_init
  | step op hr ih => exact inv_applyOp ih op

/-- C1: for every `user_points` row, after every settled scoring
operation (artwork submission award on either path, like toggle in
either direction, attack registration on either path, joining an
event), `points_total` equals
`artwork_points + like_points + attack_points`. -/
theorem c1_points_total_invariant {db : DB} (h : Reachable db) :
    ∀ r ∈ db.user_points,
      r.points_total =
        r.artwork_points + r.like_points + r.attack_points :=
  (reachable_inv h).total_eq

theorem c1_points_total_invariant_witness :
    (applyOp (Op.likeToggle 2 1 0)
        (applyOp (Op.submitRPC 1 1 0) initDB)).user_points.all
      (fun r => r.points_total ==
        r.artwork_points + r.like_points + r.attack_points) = true := by
  have h := c1_points_total_invariant
    (Reachable.step (Op.likeToggle 2 1 0)
      (Reachable.step (Op.submitRPC 1 1 0) Reachable.init))
  rw [List.all_eq_true]
  intro r hr
  simp [h r hr]

end BrawlArena
